import Mathlib

/-!
Verification development for the Route and Gate Optimization Engine
(`backend/services/route_optimizer.py`, with the gate-data invariant coming
from `AmapService.get_poi_gates` in `backend/services/amap_service.py`).

Modelling conventions:
* Python floats are modelled as elements of a linear ordered field; the
  combinatorial code is stated generically over such a field `α` so that the
  very same definitions can be run on `ℚ` (for concrete evaluation) and
  instantiated at `ℝ` (where the Haversine distance lives).
* A coordinate pair `(lng, lat)` is `α × α`.
* Python dictionaries are modelled as structures; `dict.get(k, default)`
  becomes a total field holding the default when the key is absent, and a
  field that may genuinely be missing (checked by the code) becomes `Option`.
* Fallible code (Python exceptions that escape the function) returns `Option`.
* The OR-Tools backend is an external library; it is modelled as an oracle
  `solver : List (List ℤ) → Option (List ℕ)` returning the closed tour as the
  list of visited node indices (`none` models both "no solution found" and an
  internal exception, which the source treats identically).
-/

/-! ## Generic list helpers -/

/-- Substring test: does `hay` contain `needle`?  Models the Python
expression `needle in hay` on strings. -/
def strContains (hay needle : String) : Bool :=
  (List.range (hay.data.length + 1)).any fun i => needle.data.isPrefixOf (hay.data.drop i)

/-- Map with the element index, starting from `k`.  Used to model Python
loops of the form `for i ... for j ... matrix[i][j] = f(i, j, matrix[i][j])`
(each cell only depends on itself, so the in-place update is a per-cell map). -/
def mapIdxFrom {β γ : Type} (f : ℕ → β → γ) : ℕ → List β → List γ
  | _, [] => []
  | k, x :: xs => f k x :: mapIdxFrom f (k + 1) xs

/-- First minimiser of `key` over `x :: l`, replacing the current best only on
a strictly smaller key.  This is exactly the semantics of Python
`min(iterable, key=...)` (with ties broken towards the earlier element). -/
def foldMinBy {α : Type} [LinearOrder α] {β : Type} (key : β → α) (x : β) (l : List β) : β :=
  l.foldl (fun best y => if key y < key best then y else best) x

/-- Cell access in a matrix represented as a list of rows, with default 0. -/
def cellD {α : Type} [Zero α] (m : List (List α)) (i j : ℕ) : α :=
  (m.getD i []).getD j 0

/-! ## GeoMetric: the Haversine distance (`RouteOptimizer._calculate_distance`) -/

/-- Degrees to radians, `math.radians`. -/
noncomputable def radians (x : ℝ) : ℝ := x * Real.pi / 180

/-- Two-argument arctangent, `math.atan2` (C convention). -/
noncomputable def atan2 (y x : ℝ) : ℝ :=
  if 0 < x then Real.arctan (y / x)
  else if x < 0 then
    (if 0 ≤ y then Real.arctan (y / x) + Real.pi else Real.arctan (y / x) - Real.pi)
  else
    (if 0 < y then Real.pi / 2 else if y < 0 then -(Real.pi / 2) else 0)

/-- The `a` intermediate of the Haversine formula in
`RouteOptimizer._calculate_distance`: `sin²(Δlat/2) + cos(lat1)·cos(lat2)·sin²(Δlng/2)`. -/
noncomputable def havA (loc1 loc2 : ℝ × ℝ) : ℝ :=
  Real.sin (radians (loc2.2 - loc1.2) / 2) ^ 2 +
    Real.cos (radians loc1.2) * Real.cos (radians loc2.2) *
      Real.sin (radians (loc2.1 - loc1.1) / 2) ^ 2

/-- Haversine great-circle distance in meters between two `(lng, lat)` pairs,
Earth radius 6,371,000 m; a direct transcription of
`RouteOptimizer._calculate_distance` (`c = 2·atan2(√a, √(1-a))`, result `R·c`). -/
noncomputable def haversineDist (loc1 loc2 : ℝ × ℝ) : ℝ :=
  6371000 * (2 * atan2 (Real.sqrt (havA loc1 loc2)) (Real.sqrt (1 - havA loc1 loc2)))

/-! ## Data model: POIs, weather, traffic -/

/-- A POI as consumed by the route optimizer: resolved coordinates plus the
free-text category field `type` (renamed `ptype` here).  Models the Python
dict `{'name': ..., 'lng': ..., 'lat': ..., 'type': ...}` after callers have
resolved the coordinates. -/
structure Poi (α : Type) where
  name : String
  lng : α
  lat : α
  ptype : String
  deriving DecidableEq

/-- Default POI, used only as `List.getD` fallback on in-range accesses. -/
def dfltPoi {α : Type} [Zero α] : Poi α := ⟨"", 0, 0, ""⟩

/-- Coordinate pair of a POI, `(p.get('lng'), p.get('lat'))`. -/
def poiLoc {α : Type} (p : Poi α) : α × α := (p.lng, p.lat)

/-- One day-cast entry of the amap weather payload. -/
structure WCast where
  dayweather : String

/-- One forecast entry of the amap weather payload. -/
structure WForecast where
  casts : List WCast

/-- Weather payload, `weather_data` with its `forecasts` list. -/
structure WeatherData where
  forecasts : List WForecast

/-- Rain detection of `_apply_weights`: take the first cast of the first
forecast and look for one of the precipitation keywords in `dayweather`. -/
def isRainy (w : WeatherData) : Bool :=
  match w.forecasts with
  | [] => false
  | f :: _ =>
    match f.casts with
    | [] => false
    | c :: _ => ["雨", "雪", "冰雹"].any fun k => strContains c.dayweather k

/-- Outdoor POI classification of `_apply_weights`: the category text contains
one of the fixed outdoor keywords. -/
def isOutdoorType (t : String) : Bool :=
  ["风景名胜", "公园广场", "旅游景点", "文物古迹"].any fun k => strContains t k

/-- Traffic payload: `{'congestion': ..., 'delay_factor': ...}`, with the
`dict.get` defaults `False` and `1.0` folded into total fields. -/
structure TrafficData (α : Type) where
  congestion : Bool
  delay_factor : α

/-! ## CostModel (`RouteOptimizer._apply_weights`) -/

/-- Rain adjustment of one cell `(i, j)` of the weighted matrix: the diagonal
is skipped; an outdoor destination POI (`j > 0`, POI index `j - 1`) is scaled
by 1.5; afterwards the cell is scaled by 1.3 when its (possibly already
scaled) value is below 1000.  Note that the 1000 m test reads the matrix cell
after the outdoor update, exactly as the Python loop does. -/
def weatherCell {α : Type} [LinearOrderedField α] (pois : List (Poi α)) (i j : ℕ) (v : α) : α :=
  if i = j then v
  else
    let v1 := if 0 < j ∧ j - 1 < pois.length ∧
        isOutdoorType (pois.getD (j - 1) dfltPoi).ptype = true then v * 1.5 else v
    if v1 < 1000 then v1 * 1.3 else v1

/-- Weight application, `RouteOptimizer._apply_weights`: a copy of the matrix
with the rain penalties applied first and the congestion penalty second; the
congestion test also reads the already weather-adjusted cell. -/
def applyWeights {α : Type} [LinearOrderedField α] (m : List (List α)) (pois : List (Poi α))
    (weather : Option WeatherData) (traffic : Option (TrafficData α)) : List (List α) :=
  let m1 := match weather with
    | none => m
    | some w =>
      if isRainy w = true then
        mapIdxFrom (fun i row => mapIdxFrom (fun j v => weatherCell pois i j v) 0 row) 0 m
      else m
  match traffic with
  | none => m1
  | some t =>
    if t.congestion = true then
      mapIdxFrom (fun i row =>
        mapIdxFrom (fun j v => if i ≠ j ∧ 5000 < v then v * t.delay_factor else v) 0 row) 0 m1
    else m1

/-! ## DistanceMatrixBuilder (`RouteOptimizer._build_distance_matrix`) -/

/-- A POI as received before coordinate validation: either coordinate key may
be absent (`None`), which is what `_build_distance_matrix` trips over. -/
structure RawPoi (α : Type) where
  lng? : Option α
  lat? : Option α

/-- Resolve the coordinates of a raw POI; `none` models the `TypeError` that
`radians(None)` raises inside `_calculate_distance`. -/
def resolveLoc {α : Type} (p : RawPoi α) : Option (α × α) :=
  match p.lng?, p.lat? with
  | some a, some b => some (a, b)
  | _, _ => none

/-- Resolve a whole POI list, failing as soon as one POI lacks a coordinate
(the first raised `TypeError` aborts the whole matrix construction). -/
def resolveAll {α : Type} : List (RawPoi α) → Option (List (α × α))
  | [] => some []
  | p :: ps =>
    match resolveLoc p, resolveAll ps with
    | some l, some ls => some (l :: ls)
    | _, _ => none

/-- The square matrix over a list of locations: zero diagonal, `dist` applied
to every off-diagonal pair.  This is the loop body of
`_build_distance_matrix` once `locations` has been assembled. -/
def distMatrixOf {α : Type} [LinearOrderedField α] (dist : α × α → α × α → α)
    (locs : List (α × α)) : List (List α) :=
  (List.range locs.length).map fun i =>
    (List.range locs.length).map fun j =>
      if i = j then 0 else dist (locs.getD i (0, 0)) (locs.getD j (0, 0))

/-- `RouteOptimizer._build_distance_matrix`: locations are the start followed
by the POI coordinates; the result is an error (`none`) as soon as any POI
lacks a coordinate. -/
def buildDistanceMatrix {α : Type} [LinearOrderedField α] (dist : α × α → α × α → α)
    (pois : List (RawPoi α)) (start : α × α) : Option (List (List α)) :=
  (resolveAll pois).map fun ls => distMatrixOf dist (start :: ls)

/-! ## SequenceSolver (`optimize_route`, `_solve_with_ortools`,
`_greedy_nearest_neighbor`) -/

/-- One selection round of the greedy loop, fuel-bounded: pick the unvisited
index nearest to the current location (Python `min` over the set, earliest
index on ties), append it and recurse from its location.  The fuel is the
initial number of unvisited indices; the while loop runs exactly that often. -/
def greedyGo {α : Type} [LinearOrderedField α] (dist : α × α → α × α → α)
    (pois : List (Poi α)) : ℕ → α × α → List ℕ → List ℕ
  | 0, _, _ => []
  | _ + 1, _, [] => []
  | fuel + 1, cur, u :: us =>
    let nearest := foldMinBy (fun idx => dist cur (poiLoc (pois.getD idx dfltPoi))) u us
    nearest ::
      greedyGo dist pois fuel (poiLoc (pois.getD nearest dfltPoi)) ((u :: us).erase nearest)

/-- `RouteOptimizer._greedy_nearest_neighbor`. -/
def greedyNearestNeighbor {α : Type} [LinearOrderedField α] (dist : α × α → α × α → α)
    (pois : List (Poi α)) (start : α × α) : List ℕ :=
  greedyGo dist pois pois.length start (List.range pois.length)

/-- Truncation towards zero, `np.astype(int)` on a float. -/
def truncToInt {α : Type} [LinearOrderedField α] [FloorRing α] (x : α) : ℤ :=
  if 0 ≤ x then ⌊x⌋ else -⌊-x⌋

/-- Integer matrix handed to the solver: every cell scaled by 1000 and
truncated (`(np.array(weighted_matrix) * 1000).astype(int)`). -/
def intScale {α : Type} [LinearOrderedField α] [FloorRing α] (m : List (List α)) :
    List (List ℤ) :=
  m.map fun row => row.map fun x => truncToInt (x * 1000)

/-- Route extraction from a solver tour: walk the tour, keep node indices
above 0 (the depot) and shift them down by one (the loop at the end of
`_solve_with_ortools`). -/
def tourExtract (tour : List ℕ) : List ℕ :=
  (tour.filter fun n => decide (0 < n)).map fun n => n - 1

/-- `RouteOptimizer._solve_with_ortools`: build the matrix if absent, weight
it, scale to integers, ask the backend; on success extract the order, on any
failure (no solution or exception) fall back to the greedy algorithm. -/
def solveWithOrtools {α : Type} [LinearOrderedField α] [FloorRing α]
    (solver : List (List ℤ) → Option (List ℕ)) (dist : α × α → α × α → α)
    (pois : List (Poi α)) (start : α × α) (dm? : Option (List (List α)))
    (weather : Option WeatherData) (traffic : Option (TrafficData α)) : List ℕ :=
  let dm := match dm? with
    | some m => m
    | none => distMatrixOf dist (start :: pois.map poiLoc)
  let im := intScale (applyWeights dm pois weather traffic)
  match solver im with
  | some tour => tourExtract tour
  | none => greedyNearestNeighbor dist pois start

/-- `RouteOptimizer.optimize_route`: empty input short-circuits; the backend
is used when it is available and there are more than two POIs; otherwise the
greedy fallback runs. -/
def optimizeRoute {α : Type} [LinearOrderedField α] [FloorRing α] (avail : Bool)
    (solver : List (List ℤ) → Option (List ℕ)) (dist : α × α → α × α → α)
    (pois : List (Poi α)) (start : α × α) (dm? : Option (List (List α)))
    (weather : Option WeatherData) (traffic : Option (TrafficData α)) : List ℕ :=
  if pois.isEmpty then []
  else if avail = true ∧ 2 < pois.length then
    solveWithOrtools solver dist pois start dm? weather traffic
  else greedyNearestNeighbor dist pois start

/-- The fallback path of `optimize_route`: either the backend branch is not
taken at all, or the backend returns no solution for the integer matrix this
invocation builds. -/
def fallbackTaken {α : Type} [LinearOrderedField α] [FloorRing α] (avail : Bool)
    (solver : List (List ℤ) → Option (List ℕ)) (dist : α × α → α × α → α)
    (pois : List (Poi α)) (start : α × α) (dm? : Option (List (List α)))
    (weather : Option WeatherData) (traffic : Option (TrafficData α)) : Prop :=
  ¬(avail = true ∧ 2 < pois.length) ∨
    solver (intScale (applyWeights
      (match dm? with
        | some m => m
        | none => distMatrixOf dist (start :: pois.map poiLoc)) pois weather traffic)) = none

/-! ## RouteStats (`RouteOptimizer._calculate_route_stats`) -/

/-- One leg of the stats loop: skip out-of-range indices, otherwise add the
leg distance and the speed-model duration and advance the current location.
The accumulator is `(current location, (total distance, total duration))`. -/
def statsStep {α : Type} [LinearOrderedField α] (dist : α × α → α × α → α)
    (pois : List (Poi α)) (acc : (α × α) × α × α) (idx : ℕ) : (α × α) × α × α :=
  if idx < pois.length then
    let nl := poiLoc (pois.getD idx dfltPoi)
    let dd := dist acc.1 nl
    let dur :=
      if dd < 1000 then dd / 1000 / 5 * 3600
      else if dd < 5000 then dd / 1000 / 20 * 3600
      else dd / 1000 / 40 * 3600
    (nl, (acc.2.1 + dd, acc.2.2 + dur))
  else acc

/-- `RouteOptimizer._calculate_route_stats`, returning
`(total_distance, total_duration)`. -/
def calculateRouteStats {α : Type} [LinearOrderedField α] (dist : α × α → α × α → α)
    (route : List ℕ) (pois : List (Poi α)) (start : α × α) : α × α :=
  (route.foldl (statsStep dist pois) (start, (0, 0))).2

/-- Leg distances of a route: distances between consecutive locations of the
walk `start, poi(route 0), poi(route 1), ...`.  Used to state the stats
claims in sum-over-legs form. -/
def routeLegs {α : Type} [LinearOrderedField α] (dist : α × α → α × α → α)
    (route : List ℕ) (pois : List (Poi α)) (start : α × α) : List α :=
  let locs := route.map fun k => poiLoc (pois.getD k dfltPoi)
  ((start :: locs).zip locs).map fun pq => dist pq.1 pq.2

/-- Modelled from the spec: the RouteStats computation exactly as the claim
words it, with the 20 km/h band closed at 5000 m ("legs from 1000 m up to and
including 5000 m") and each duration being distance divided by the speed in
meters per second.  This definition follows the claim text, deliberately not
the code, and is used to compare the two. -/
def routeStatsClaimed {α : Type} [LinearOrderedField α] (dist : α × α → α × α → α)
    (route : List ℕ) (pois : List (Poi α)) (start : α × α) : α × α :=
  let legs := routeLegs dist route pois start
  (legs.sum,
   (legs.map fun v =>
     if v < 1000 then v / (5000 / 3600)
     else if v ≤ 5000 then v / (20000 / 3600)
     else v / (40000 / 3600)).sum)

/-! ## GateSelector (`RouteOptimizer.optimize_gates_for_sequence`) -/

/-- A gate returned by `AmapService.get_poi_gates`: name, parsed coordinate
pair (the `location` string `"lng,lat"`), address.  Gates emitted by the amap
service always carry a nonempty location (they are deduplicated on it), so the
coordinate field is total here. -/
structure Gate (α : Type) where
  name : String
  location : α × α
  address : String
  deriving DecidableEq

/-- Default gate, used only as `List.getD` fallback on in-range accesses. -/
def dfltGate {α : Type} [Zero α] : Gate α := ⟨"", (0, 0), ""⟩

/-- Result of the gate lookup for one POI, `get_poi_gates`: a gate list plus
the `has_multiple_gates` flag.  Every return path of `get_poi_gates` sets the
flag to `len(gates) > 1`. -/
structure GatesData (α : Type) where
  gates : List (Gate α)
  hasMultipleGates : Bool

/-- A POI inside a gate-optimization sequence: name, raw coordinates, and the
optional `location` string (absent or empty string becomes `none`). -/
structure GatePoi (α : Type) where
  name : String
  lng : α
  lat : α
  location? : Option (α × α)

/-- Default sequence POI, used only as `List.getD` fallback. -/
def dfltGatePoi {α : Type} [Zero α] : GatePoi α := ⟨"", 0, 0, none⟩

/-- Raw coordinates of a sequence POI, `(poi.get('lng'), poi.get('lat'))`. -/
def rawLoc {α : Type} (p : GatePoi α) : α × α := (p.lng, p.lat)

/-- An output element of `optimize_gates_for_sequence`: the POI copy with the
optional `entry_gate` and `exit_gate` fields. -/
structure Stop (α : Type) where
  poi : GatePoi α
  entryGate : Option (Gate α)
  exitGate : Option (Gate α)

/-- Default stop, used only as `List.getD` fallback. -/
def dfltStop {α : Type} [Zero α] : Stop α := ⟨dfltGatePoi, none, none⟩

/-- Entry gate choice: nearest gate to the previous location when there is
one (Python `min` with its first-minimiser tie-break), otherwise the first
gate of the list (the `else` branch for the first stop). -/
def chooseEntry {α : Type} [LinearOrderedField α] (d : α × α → α × α → α)
    (gates : List (Gate α)) (prev? : Option (α × α)) : Gate α :=
  match prev? with
  | some pl =>
    match gates with
    | [] => dfltGate
    | g :: gs => foldMinBy (fun h => d pl h.location) g gs
  | none => gates.getD 0 dfltGate

/-- Sort order used for `gate_distances.sort(key=...)`: ascending distance of
the gate to the next location. -/
def gateOrder {α : Type} [LinearOrderedField α] (d : α × α → α × α → α) (nl : α × α)
    (g h : Gate α) : Prop :=
  d g.location nl ≤ d h.location nl

instance {α : Type} [LinearOrderedField α] (d : α × α → α × α → α) (nl : α × α) :
    DecidableRel (gateOrder d nl) :=
  fun g h => inferInstanceAs (Decidable (d g.location nl ≤ d h.location nl))

instance {α : Type} [LinearOrderedField α] (d : α × α → α × α → α) (nl : α × α) :
    IsTotal (Gate α) (gateOrder d nl) :=
  ⟨fun g h => le_total (d g.location nl) (d h.location nl)⟩

instance {α : Type} [LinearOrderedField α] (d : α × α → α × α → α) (nl : α × α) :
    IsTrans (Gate α) (gateOrder d nl) :=
  ⟨fun _ _ _ h1 h2 => le_trans h1 h2⟩

/-- The gate list sorted by distance to the next location; a stable ascending
sort, matching the stable Python `list.sort`. -/
def sortGatesByNext {α : Type} [LinearOrderedField α] (d : α × α → α × α → α)
    (gates : List (Gate α)) (nl : α × α) : List (Gate α) :=
  List.insertionSort (gateOrder d nl) gates

/-- Maximum pairwise distance among the gates (`max(... for g1 in gates for
g2 in gates if g1 != g2) if len(gates) > 1 else 0`).  When every pair of
gates is equal the Python generator is empty and `max` would raise; that
corner returns 0 here and is unreachable whenever two distinct gates exist. -/
def maxPairwiseD {α : Type} [LinearOrderedField α] [DecidableEq α]
    (d : α × α → α × α → α) (gates : List (Gate α)) : α :=
  if 1 < gates.length then
    match ((gates.product gates).filter fun p => decide (p.1 ≠ p.2)).map
        (fun p => d p.1.location p.2.location) with
    | [] => 0
    | x :: xs => xs.foldl max x
  else 0

/-- Exit gate choice for one stop: for the last stop the exit is the entry;
otherwise the nearest gate to the next stop, overridden to the second nearest
when the flag is set, there are at least two sorted gates, entry and nearest
exit share a location, and the maximum pairwise gate distance exceeds 500 m. -/
def chooseExit {α : Type} [LinearOrderedField α] [DecidableEq α]
    (d : α × α → α × α → α) (gates : List (Gate α)) (hmg : Bool) (entry : Gate α)
    (next? : Option (α × α)) : Gate α :=
  match next? with
  | none => entry
  | some nl =>
    let sorted := sortGatesByNext d gates nl
    let e0 := sorted.getD 0 dfltGate
    if hmg = true ∧ 1 < sorted.length ∧ entry.location = e0.location then
      if 500 < maxPairwiseD d gates then sorted.getD 1 dfltGate else e0
    else e0

/-- Processing of a single stop of `optimize_gates_for_sequence`.  With at
most one gate: `main_location` is the POI location string, or the location of
the sole gate, or, when the gate list is empty, the empty string (the Python
conditional expression binds this way), and gates are attached only when that
string is nonempty.  With at least two gates: entry and exit as chosen above. -/
def processStop {α : Type} [LinearOrderedField α] [DecidableEq α]
    (d : α × α → α × α → α) (gd : GatesData α) (poi : GatePoi α)
    (prev? next? : Option (α × α)) : Stop α :=
  let gates := gd.gates
  if gates.length ≤ 1 then
    let mainLoc : Option (α × α) :=
      match gates with
      | [] => none
      | g :: _ => poi.location? <|> some g.location
    match mainLoc with
    | some l => ⟨poi, some ⟨poi.name ++ "(主入口)", l, ""⟩, some ⟨poi.name ++ "(主入口)", l, ""⟩⟩
    | none => ⟨poi, none, none⟩
  else
    let entry := chooseEntry d gates prev?
    let exitG := chooseExit d gates gd.hasMultipleGates entry next?
    ⟨poi, some entry, some exitG⟩

/-- Resolved exit position of a processed stop: the exit gate location when
present, the raw POI coordinates otherwise. -/
def prevLocOfStop {α : Type} (s : Stop α) : α × α :=
  match s.exitGate with
  | some e => e.location
  | none => rawLoc s.poi

/-- Raw location of the next POI of the sequence, if any. -/
def nextLocOf {α : Type} : List (GatePoi α) → Option (α × α)
  | [] => none
  | q :: _ => some (rawLoc q)

/-- The next-stop location argument received by stop `i` of the sequence:
the raw location of POI `i + 1` when it exists, `none` for the last stop. -/
def nextAfter {α : Type} [Zero α] (seq : List (GatePoi α)) (i : ℕ) : Option (α × α) :=
  if i + 1 < seq.length then some (rawLoc (seq.getD (i + 1) dfltGatePoi)) else none

/-- The left-to-right loop of `optimize_gates_for_sequence`, carrying the
resolved exit position of the previously emitted stop. -/
def optimizeGatesGo {α : Type} [LinearOrderedField α] [DecidableEq α]
    (d : α × α → α × α → α) (lookup : GatePoi α → GatesData α) :
    Option (α × α) → List (GatePoi α) → List (Stop α)
  | _, [] => []
  | prev?, p :: rest =>
    let stop := processStop d (lookup p) p prev? (nextLocOf rest)
    stop :: optimizeGatesGo d lookup (some (prevLocOfStop stop)) rest

/-- `RouteOptimizer.optimize_gates_for_sequence` (with the gate lookup service
abstracted as a function). -/
def optimizeGates {α : Type} [LinearOrderedField α] [DecidableEq α]
    (d : α × α → α × α → α) (lookup : GatePoi α → GatesData α)
    (seq : List (GatePoi α)) : List (Stop α) :=
  optimizeGatesGo d lookup none seq

/-! ## Concrete inputs reused by counterexamples and witnesses -/

/-- Squared planar distance on rationals; a computable stand-in distance used
to instantiate the generic theorems on concrete inputs. -/
def sqDistQ (p q : ℚ × ℚ) : ℚ := (p.1 - q.1) ^ 2 + (p.2 - q.2) ^ 2

/-- A weather payload whose first cast reports light rain. -/
def rainyW : WeatherData := ⟨[⟨[⟨"小雨"⟩]⟩]⟩

/-- An outdoor-category POI (scenic spot) for the weight counterexamples. -/
def outdoorPoiQ : Poi ℚ := ⟨"园", 0, 0, "风景名胜"⟩

/-- Longitude offset (in degrees, on the equator) whose Haversine distance to
longitude 0 is exactly 5000 m. -/
noncomputable def lngFor5000 : ℝ := 900 / (6371 * Real.pi)

/-- A POI exactly 5000 m east of the origin along the equator. -/
noncomputable def poi5k : Poi ℝ := ⟨"X", lngFor5000, 0, ""⟩

/-- First gate of the large-venue witness, at the origin. -/
def gAq : Gate ℚ := ⟨"gA", (0, 0), ""⟩

/-- Second gate of the large-venue witness, far from the first. -/
def gBq : Gate ℚ := ⟨"gB", (30, 0), ""⟩

/-- First sequence POI of the gate witnesses. -/
def poiAq : GatePoi ℚ := ⟨"A", 0, 0, none⟩

/-- Second sequence POI of the gate witnesses, close to the first gate. -/
def poiBq : GatePoi ℚ := ⟨"B", 1, 0, none⟩

/-- Gate lookup of the gate witnesses: two far-apart gates for POI "A",
nothing for anything else. -/
def lookupC4 : GatePoi ℚ → GatesData ℚ :=
  fun p => if p.name = "A" then ⟨[gAq, gBq], true⟩ else ⟨[], false⟩

/-- Two-stop sequence of the gate witnesses. -/
def seqC4 : List (GatePoi ℚ) := [poiAq, poiBq]

/-- A gate 10 degrees of latitude away from the origin. -/
def gateFarR : Gate ℝ := ⟨"北门", (0, 10), ""⟩

/-- A gate at the origin. -/
def gateNearR : Gate ℝ := ⟨"南门", (0, 0), ""⟩

/-- Gate lookup for the first-stop counterexample: the far gate is listed
first, the near gate second. -/
def lookupC5 : GatePoi ℝ → GatesData ℝ := fun _ => ⟨[gateFarR, gateNearR], true⟩

/-- Single-POI sequence for the first-stop counterexample. -/
def seqC5 : List (GatePoi ℝ) := [⟨"P", 5, 5, none⟩]

/-- Gate lookup reporting zero gates, the DegenerateGateData case. -/
def lookupC6 : GatePoi ℚ → GatesData ℚ := fun _ => ⟨[], false⟩

/-- A POI that does carry a resolved location string, for the zero-gates
failing input. -/
def poiC6 : GatePoi ℚ := ⟨"A", 116.4, 39.9, some (116.4, 39.9)⟩

/-! ## Helper lemmas on the list combinators -/

theorem foldMinBy_mem {α : Type} [LinearOrder α] {β : Type} (key : β → α) :
    ∀ (l : List β) (x : β), foldMinBy key x l ∈ x :: l := by
  intro l
  induction l with
  | nil => intro x; simp [foldMinBy]
  | cons y ys ih =>
    intro x
    have h : foldMinBy key x (y :: ys) = foldMinBy key (if key y < key x then y else x) ys := rfl
    rw [h]
    have h2 := ih (if key y < key x then y else x)
    rcases List.mem_cons.mp h2 with h3 | h3
    · rw [h3]
      split_ifs with h4
      · exact List.mem_cons_of_mem _ (List.mem_cons_self _ _)
      · exact List.mem_cons_self _ _
    · exact List.mem_cons_of_mem _ (List.mem_cons_of_mem _ h3)

theorem foldMinBy_le {α : Type} [LinearOrder α] {β : Type} (key : β → α) :
    ∀ (l : List β) (x : β), ∀ z ∈ x :: l, key (foldMinBy key x l) ≤ key z := by
  intro l
  induction l with
  | nil =>
    intro x z hz
    rcases List.mem_cons.mp hz with h | h
    · rw [h]; exact le_refl _
    · simp at h
  | cons y ys ih =>
    intro x z hz
    have h : foldMinBy key x (y :: ys) = foldMinBy key (if key y < key x then y else x) ys := rfl
    have hm : key (if key y < key x then y else x) ≤ key x := by
      split_ifs with h4
      · exact le_of_lt h4
      · exact le_refl _
    have hmy : key (if key y < key x then y else x) ≤ key y := by
      split_ifs with h4
      · exact le_refl _
      · exact le_of_not_lt h4
    have hhead := ih (if key y < key x then y else x) _
      (List.mem_cons_self (if key y < key x then y else x) ys)
    rcases List.mem_cons.mp hz with h3 | h3
    · rw [h3, h]; exact le_trans hhead hm
    · rcases List.mem_cons.mp h3 with h4 | h4
      · rw [h4, h]; exact le_trans hhead hmy
      · rw [h]; exact ih _ z (List.mem_cons_of_mem _ h4)

theorem length_mapIdxFrom {β γ : Type} (f : ℕ → β → γ) :
    ∀ (k : ℕ) (l : List β), (mapIdxFrom f k l).length = l.length := by
  intro k l
  induction l generalizing k with
  | nil => rfl
  | cons x xs ih => simp [mapIdxFrom, ih]

theorem getD_mapIdxFrom_lt {β γ : Type} (f : ℕ → β → γ) :
    ∀ (l : List β) (k j : ℕ), j < l.length → ∀ (d : γ) (d0 : β),
      (mapIdxFrom f k l).getD j d = f (k + j) (l.getD j d0) := by
  intro l
  induction l with
  | nil => intro k j hj; simp at hj
  | cons x xs ih =>
    intro k j hj d d0
    match j with
    | 0 => simp [mapIdxFrom]
    | j + 1 =>
      have hj2 : j < xs.length := by simpa using hj
      have := ih (k + 1) j hj2 d d0
      simp only [mapIdxFrom, List.getD_cons_succ]
      rw [this]
      congr 1
      omega

theorem getD_mapIdxFrom_ge {β γ : Type} (f : ℕ → β → γ) (l : List β) (k j : ℕ)
    (hj : l.length ≤ j) (d : γ) : (mapIdxFrom f k l).getD j d = d := by
  apply List.getD_eq_default
  rw [length_mapIdxFrom]
  exact hj

theorem greedyGo_perm {α : Type} [LinearOrderedField α] (dist : α × α → α × α → α)
    (pois : List (Poi α)) :
    ∀ (fuel : ℕ) (cur : α × α) (l : List ℕ), l.length ≤ fuel →
      (greedyGo dist pois fuel cur l).Perm l := by
  intro fuel
  induction fuel with
  | zero =>
    intro cur l hl
    have : l = [] := List.eq_nil_of_length_eq_zero (Nat.le_zero.mp hl)
    rw [this]
    exact List.Perm.refl _
  | succ n ih =>
    intro cur l hl
    match l with
    | [] => exact List.Perm.refl _
    | u :: us =>
      have hmem : foldMinBy (fun idx => dist cur (poiLoc (pois.getD idx dfltPoi))) u us ∈ u :: us :=
        foldMinBy_mem _ us u
      have hlen : ((u :: us).erase
          (foldMinBy (fun idx => dist cur (poiLoc (pois.getD idx dfltPoi))) u us)).length ≤ n := by
        rw [List.length_erase_of_mem hmem]
        simp only [List.length_cons] at hl ⊢
        omega
      have hperm := ih (poiLoc (pois.getD
        (foldMinBy (fun idx => dist cur (poiLoc (pois.getD idx dfltPoi))) u us) dfltPoi)) _ hlen
      exact (hperm.cons _).trans (List.perm_cons_erase hmem).symm

theorem greedyNearestNeighbor_perm {α : Type} [LinearOrderedField α]
    (dist : α × α → α × α → α) (pois : List (Poi α)) (start : α × α) :
    (greedyNearestNeighbor dist pois start).Perm (List.range pois.length) := by
  unfold greedyNearestNeighbor
  exact greedyGo_perm dist pois pois.length start (List.range pois.length)
    (by simp)

theorem tourExtract_perm {n : ℕ} {tour : List ℕ} (h : tour.Perm (List.range (n + 1))) :
    (tourExtract tour).Perm (List.range n) := by
  unfold tourExtract
  have h1 := h.filter (fun m => decide (0 < m))
  have h2 : (List.range (n + 1)).filter (fun m => decide (0 < m)) =
      (List.range n).map Nat.succ := by
    rw [List.range_succ_eq_map, List.filter_cons]
    simp only [decide_eq_true_eq, Nat.lt_irrefl, if_false]
    rw [List.filter_eq_self.mpr]
    intro a ha
    obtain ⟨b, _, rfl⟩ := List.mem_map.mp ha
    simp
  rw [h2] at h1
  have h3 := h1.map (fun m => m - 1)
  rw [List.map_map] at h3
  have h4 : (List.range n).map ((fun m => m - 1) ∘ Nat.succ) = List.range n := by
    have : ((fun m => m - 1) ∘ Nat.succ) = id := by
      funext m
      simp
    rw [this, List.map_id]
  rw [h4] at h3
  exact h3

theorem resolveAll_eq_none_of_mem {α : Type} :
    ∀ (l : List (RawPoi α)) (p : RawPoi α), p ∈ l → resolveLoc p = none →
      resolveAll l = none := by
  intro l
  induction l with
  | nil => intro p hp; simp at hp
  | cons q qs ih =>
    intro p hp hf
    rcases List.mem_cons.mp hp with h | h
    · rw [h] at hf
      simp only [resolveAll, hf]
    · simp only [resolveAll, ih p h hf]
      cases resolveLoc q <;> rfl

theorem resolveAll_some_length {α : Type} :
    ∀ (l : List (RawPoi α)) (ls : List (α × α)), resolveAll l = some ls →
      ls.length = l.length := by
  intro l
  induction l with
  | nil =>
    intro ls h
    simp only [resolveAll, Option.some.injEq] at h
    simp [← h]
  | cons q qs ih =>
    intro ls h
    simp only [resolveAll] at h
    cases hq : resolveLoc q with
    | none => rw [hq] at h; simp at h
    | some v =>
      rw [hq] at h
      cases hqs : resolveAll qs with
      | none => rw [hqs] at h; simp at h
      | some vs =>
        rw [hqs] at h
        simp only [Option.some.injEq] at h
        rw [← h]
        simp [ih vs hqs]

/-! ## Shape lemmas for the solver pipeline -/

theorem applyWeights_length {α : Type} [LinearOrderedField α] (m : List (List α))
    (pois : List (Poi α)) (weather : Option WeatherData) (traffic : Option (TrafficData α)) :
    (applyWeights m pois weather traffic).length = m.length := by
  unfold applyWeights
  cases weather with
  | none =>
    cases traffic with
    | none => rfl
    | some t =>
      by_cases h : t.congestion = true
      · simp [h, length_mapIdxFrom]
      · simp [h]
  | some w =>
    by_cases hw : isRainy w = true
    · cases traffic with
      | none => simp [hw, length_mapIdxFrom]
      | some t =>
        by_cases h : t.congestion = true
        · simp [hw, h, length_mapIdxFrom]
        · simp [hw, h, length_mapIdxFrom]
    · cases traffic with
      | none => simp [hw]
      | some t =>
        by_cases h : t.congestion = true
        · simp [hw, h, length_mapIdxFrom]
        · simp [hw, h]

theorem intScale_length {α : Type} [LinearOrderedField α] [FloorRing α]
    (m : List (List α)) : (intScale m).length = m.length := by
  simp [intScale]

theorem distMatrixOf_length {α : Type} [LinearOrderedField α] (dist : α × α → α × α → α)
    (locs : List (α × α)) : (distMatrixOf dist locs).length = locs.length := by
  simp [distMatrixOf]

theorem fallbackTaken_eq_greedy {α : Type} [LinearOrderedField α] [FloorRing α]
    (avail : Bool) (solver : List (List ℤ) → Option (List ℕ)) (dist : α × α → α × α → α)
    (pois : List (Poi α)) (start : α × α) (dm? : Option (List (List α)))
    (weather : Option WeatherData) (traffic : Option (TrafficData α))
    (h : fallbackTaken avail solver dist pois start dm? weather traffic) :
    optimizeRoute avail solver dist pois start dm? weather traffic =
      greedyNearestNeighbor dist pois start := by
  unfold optimizeRoute
  by_cases he : pois.isEmpty
  · rw [if_pos he]
    have h0 : pois = [] := List.isEmpty_iff.mp he
    rw [h0]
    rfl
  · rw [if_neg he]
    by_cases hb : avail = true ∧ 2 < pois.length
    · rw [if_pos hb]
      rcases h with h | h
      · exact absurd hb h
      · simp only [solveWithOrtools]
        rw [h]
    · rw [if_neg hb]

/-! ## C1 and C10: solver output invariants -/

/-- Claim C1: for every list of N POIs and any start location, optimize_route
returns a permutation of the POI indices 0..N-1 (no repeats, nothing missing,
and the start node 0 of the matrix never leaks into the output), regardless of
whether the heuristic backend is unavailable, fails, or succeeds — under the
backend library contract that any returned tour visits each matrix node
exactly once, and for caller-supplied matrices of the documented (N+1)×(N+1)
shape. -/
theorem C1_solveSequence_permutation {α : Type} [LinearOrderedField α] [FloorRing α]
    (avail : Bool) (solver : List (List ℤ) → Option (List ℕ)) (dist : α × α → α × α → α)
    (pois : List (Poi α)) (start : α × α) (dm? : Option (List (List α)))
    (weather : Option WeatherData) (traffic : Option (TrafficData α))
    (hsolver : ∀ m tour, solver m = some tour → tour.Perm (List.range m.length))
    (hdm : ∀ m, dm? = some m → m.length = pois.length + 1) :
    (optimizeRoute avail solver dist pois start dm? weather traffic).Perm
      (List.range pois.length) := by
  unfold optimizeRoute
  by_cases he : pois.isEmpty
  · rw [if_pos he]
    have h0 : pois = [] := List.isEmpty_iff.mp he
    rw [h0]
    simp
  · rw [if_neg he]
    by_cases hb : avail = true ∧ 2 < pois.length
    · rw [if_pos hb]
      simp only [solveWithOrtools]
      cases hs : solver (intScale (applyWeights
          (match dm? with
            | some m => m
            | none => distMatrixOf dist (start :: pois.map poiLoc)) pois weather traffic)) with
      | none => exact greedyNearestNeighbor_perm dist pois start
      | some tour =>
        have hp := hsolver _ _ hs
        have hdml : (match dm? with
            | some m => m
            | none => distMatrixOf dist (start :: pois.map poiLoc)).length =
            pois.length + 1 := by
          cases dm? with
          | some m => exact hdm m rfl
          | none => simp [distMatrixOf_length]
        rw [intScale_length, applyWeights_length, hdml] at hp
        exact tourExtract_perm hp
    · rw [if_neg hb]
      exact greedyNearestNeighbor_perm dist pois start

theorem C1_witness :
    (∀ (m : List (List ℤ)) (tour : List ℕ),
      (fun _ : List (List ℤ) => (none : Option (List ℕ))) m = some tour →
        tour.Perm (List.range m.length)) ∧
    (∀ m : List (List ℚ), (none : Option (List (List ℚ))) = some m →
      m.length = [(⟨"a", 3, 0, ""⟩ : Poi ℚ), ⟨"b", 1, 0, ""⟩].length + 1) ∧
    (optimizeRoute false (fun _ => none) sqDistQ
      [(⟨"a", 3, 0, ""⟩ : Poi ℚ), ⟨"b", 1, 0, ""⟩] (0, 0) none none none).Perm
      (List.range 2) := by
  refine ⟨by simp, by simp, ?_⟩
  exact C1_solveSequence_permutation false (fun _ => none) sqDistQ
    [(⟨"a", 3, 0, ""⟩ : Poi ℚ), ⟨"b", 1, 0, ""⟩] (0, 0) none none none
    (by simp) (by simp)

/-- Claim C10: whenever two invocations of optimize_route agree on the POIs,
the start location and the (availability, backend, raw-distance) environment
but differ arbitrarily in the supplied distance matrix, weather data and
traffic data, and both end on the fallback path, they return the identical
order: the greedy fallback only ever measures raw distances from the POI
coordinates and never reads the weighted cost matrix. -/
theorem C10_fallback_noninterference {α : Type} [LinearOrderedField α] [FloorRing α]
    (avail : Bool) (solver : List (List ℤ) → Option (List ℕ)) (dist : α × α → α × α → α)
    (pois : List (Poi α)) (start : α × α)
    (dm1 dm2 : Option (List (List α))) (w1 w2 : Option WeatherData)
    (t1 t2 : Option (TrafficData α))
    (h1 : fallbackTaken avail solver dist pois start dm1 w1 t1)
    (h2 : fallbackTaken avail solver dist pois start dm2 w2 t2) :
    optimizeRoute avail solver dist pois start dm1 w1 t1 =
      optimizeRoute avail solver dist pois start dm2 w2 t2 :=
  (fallbackTaken_eq_greedy avail solver dist pois start dm1 w1 t1 h1).trans
    (fallbackTaken_eq_greedy avail solver dist pois start dm2 w2 t2 h2).symm

theorem C10_witness :
    fallbackTaken false (fun _ => none) sqDistQ [(⟨"a", 3, 0, ""⟩ : Poi ℚ)] (0, 0)
      (some [[0, 1], [1, 0]]) (some rainyW) (some ⟨true, 2⟩) ∧
    fallbackTaken false (fun _ => none) sqDistQ [(⟨"a", 3, 0, ""⟩ : Poi ℚ)] (0, 0)
      none none none ∧
    optimizeRoute false (fun _ => none) sqDistQ [(⟨"a", 3, 0, ""⟩ : Poi ℚ)] (0, 0)
      (some [[0, 1], [1, 0]]) (some rainyW) (some ⟨true, 2⟩) =
      optimizeRoute false (fun _ => none) sqDistQ [(⟨"a", 3, 0, ""⟩ : Poi ℚ)] (0, 0)
        none none none := by
  refine ⟨Or.inl (by simp), Or.inl (by simp), ?_⟩
  exact C10_fallback_noninterference false (fun _ => none) sqDistQ
    [(⟨"a", 3, 0, ""⟩ : Poi ℚ)] (0, 0) (some [[0, 1], [1, 0]]) none (some rainyW) none
    (some ⟨true, 2⟩) none (Or.inl (by simp)) (Or.inl (by simp))

/-! ## Cell-level description of applyWeights -/

theorem weatherCell_zero {α : Type} [LinearOrderedField α] (pois : List (Poi α)) (i j : ℕ) :
    weatherCell pois i j 0 = 0 := by
  unfold weatherCell
  split_ifs <;> simp

theorem applyWeights_weather_cell {α : Type} [LinearOrderedField α] (m : List (List α))
    (pois : List (Poi α)) (w : WeatherData) (hw : isRainy w = true) (i j : ℕ) :
    cellD (applyWeights m pois (some w) none) i j = weatherCell pois i j (cellD m i j) := by
  have hshape : applyWeights m pois (some w) none =
      mapIdxFrom (fun i row => mapIdxFrom (fun j v => weatherCell pois i j v) 0 row) 0 m := by
    unfold applyWeights
    simp [hw]
  rw [hshape]
  unfold cellD
  by_cases hi : i < m.length
  · rw [getD_mapIdxFrom_lt _ m 0 i hi [] []]
    simp only [Nat.zero_add]
    by_cases hj : j < (m.getD i []).length
    · rw [getD_mapIdxFrom_lt _ _ 0 j hj 0 0]
      simp
    · rw [getD_mapIdxFrom_ge _ _ 0 j (le_of_not_lt hj) 0]
      rw [List.getD_eq_default _ _ (le_of_not_lt hj)]
      exact (weatherCell_zero pois i j).symm
  · rw [getD_mapIdxFrom_ge _ m 0 i (le_of_not_lt hi) []]
    rw [List.getD_eq_default m [] (le_of_not_lt hi)]
    simp only [List.getD_nil]
    exact (weatherCell_zero pois i j).symm

theorem applyWeights_traffic_shape {α : Type} [LinearOrderedField α] (m : List (List α))
    (pois : List (Poi α)) (w? : Option WeatherData) (t : TrafficData α)
    (ht : t.congestion = true) :
    applyWeights m pois w? (some t) =
      mapIdxFrom (fun i row =>
        mapIdxFrom (fun j v => if i ≠ j ∧ 5000 < v then v * t.delay_factor else v) 0 row) 0
        (applyWeights m pois w? none) := by
  unfold applyWeights
  cases w? <;> simp [ht]

theorem applyWeights_traffic_cell {α : Type} [LinearOrderedField α] (m : List (List α))
    (pois : List (Poi α)) (w? : Option WeatherData) (t : TrafficData α)
    (ht : t.congestion = true) (i j : ℕ) :
    cellD (applyWeights m pois w? (some t)) i j =
      (if i ≠ j ∧ 5000 < cellD (applyWeights m pois w? none) i j
       then cellD (applyWeights m pois w? none) i j * t.delay_factor
       else cellD (applyWeights m pois w? none) i j) := by
  rw [applyWeights_traffic_shape m pois w? t ht]
  unfold cellD
  by_cases hi : i < (applyWeights m pois w? none).length
  · rw [getD_mapIdxFrom_lt _ _ 0 i hi [] []]
    simp only [Nat.zero_add]
    by_cases hj : j < ((applyWeights m pois w? none).getD i []).length
    · rw [getD_mapIdxFrom_lt _ _ 0 j hj 0 0]
      simp only [Nat.zero_add]
    · rw [getD_mapIdxFrom_ge _ _ 0 j (le_of_not_lt hj) 0]
      rw [List.getD_eq_default _ _ (le_of_not_lt hj)]
      have hcond : ¬(i ≠ j ∧ (5000 : α) < 0) := by
        rintro ⟨h1, h2⟩
        exact absurd h2 (by norm_num)
      rw [if_neg hcond]
  · rw [getD_mapIdxFrom_ge _ _ 0 i (le_of_not_lt hi) []]
    rw [List.getD_eq_default _ [] (le_of_not_lt hi)]
    simp only [List.getD_nil]
    have hcond : ¬(i ≠ j ∧ (5000 : α) < 0) := by
      rintro ⟨h1, h2⟩
      exact absurd h2 (by norm_num)
    rw [if_neg hcond]

/-! ## C2 and C3: weather and traffic penalties -/

/-- Claim C2 counterexample: under rain, an outdoor-destination edge of raw
distance 700 m becomes 700 × 1.5 = 1050, not 700 × 1.5 × 1.3 = 1365 — the
1.3 walking multiplier is skipped because the 1000 m test reads the cell
after the outdoor multiplication (1050 is not below 1000). -/
theorem C2_counterexample :
    cellD (applyWeights [[0, 700], [700, 0]] [outdoorPoiQ] (some rainyW) none) 0 1 = 1050 ∧
    (1050 : ℚ) ≠ 700 * 1.5 * 1.3 := by
  have hcell : cellD ([[0, 700], [700, 0]] : List (List ℚ)) 0 1 = 700 := by simp [cellD]
  constructor
  · rw [applyWeights_weather_cell _ _ _ (by decide) 0 1, hcell]
    simp only [weatherCell]
    rw [if_neg (by decide : ¬ (0 : ℕ) = 1)]
    rw [if_pos (by decide : 0 < 1 ∧ 1 - 1 < [outdoorPoiQ].length ∧
      isOutdoorType ([outdoorPoiQ].getD (1 - 1) dfltPoi).ptype = true)]
    rw [if_neg (by norm_num : ¬ (700 : ℚ) * 1.5 < 1000)]
    norm_num
  · norm_num

/-- Claim C2 (amended): under a rainy WeatherContext and no traffic data, an
off-diagonal cell with an outdoor destination POI is multiplied by 1.5, and
the 1.3 walking multiplier applies to the cell value as it stands after the
outdoor step (so the two compose exactly when 1.5 × raw value is still below
1000); a cell without an outdoor destination is multiplied by 1.3 exactly
when its raw value is below 1000 and is otherwise unchanged. -/
theorem C2_weather_penalty_amended {α : Type} [LinearOrderedField α] (m : List (List α))
    (pois : List (Poi α)) (w : WeatherData) (hw : isRainy w = true) (i j : ℕ) (hij : i ≠ j) :
    ((0 < j ∧ j - 1 < pois.length ∧ isOutdoorType (pois.getD (j - 1) dfltPoi).ptype = true) →
      (cellD m i j * 1.5 < 1000 →
        cellD (applyWeights m pois (some w) none) i j = cellD m i j * 1.5 * 1.3) ∧
      (¬ cellD m i j * 1.5 < 1000 →
        cellD (applyWeights m pois (some w) none) i j = cellD m i j * 1.5)) ∧
    (¬ (0 < j ∧ j - 1 < pois.length ∧ isOutdoorType (pois.getD (j - 1) dfltPoi).ptype = true) →
      (cellD m i j < 1000 →
        cellD (applyWeights m pois (some w) none) i j = cellD m i j * 1.3) ∧
      (¬ cellD m i j < 1000 →
        cellD (applyWeights m pois (some w) none) i j = cellD m i j)) := by
  rw [applyWeights_weather_cell m pois w hw i j]
  refine ⟨fun hout => ⟨fun hlt => ?_, fun hge => ?_⟩,
          fun hout => ⟨fun hlt => ?_, fun hge => ?_⟩⟩
  · simp only [weatherCell, if_neg hij, if_pos hout, if_pos hlt]
  · simp only [weatherCell, if_neg hij, if_pos hout, if_neg hge]
  · simp only [weatherCell, if_neg hij, if_neg hout, if_pos hlt]
  · simp only [weatherCell, if_neg hij, if_neg hout, if_neg hge]

theorem C2_witness :
    isRainy rainyW = true ∧ (0 : ℕ) ≠ 1 ∧
    cellD (applyWeights [[0, 500], [500, 0]] [outdoorPoiQ] (some rainyW) none) 0 1 =
      500 * 1.5 * 1.3 := by
  have hcell : cellD ([[0, 500], [500, 0]] : List (List ℚ)) 0 1 = 500 := by simp [cellD]
  refine ⟨by decide, by decide, ?_⟩
  have h := (C2_weather_penalty_amended [[0, 500], [500, 0]] [outdoorPoiQ] rainyW
    (by decide) 0 1 (by decide)).1 (by decide)
  have h2 := h.1 (by rw [hcell]; norm_num)
  rw [h2, hcell]

/-- Claim C3 counterexample: a raw 4000 m cell (at most 5000 m) with an
outdoor destination becomes 6000 under rain, and the congestion step with
delay factor 2 then multiplies it to 12000 because the 5000 m test reads the
weather-adjusted value — the claim would require the cell to stay at 6000. -/
theorem C3_counterexample :
    cellD [[0, 4000], [4000, 0]] 0 1 = (4000 : ℚ) ∧ ¬ (5000 : ℚ) < 4000 ∧
    cellD (applyWeights [[0, 4000], [4000, 0]] [outdoorPoiQ] (some rainyW) none) 0 1 = 6000 ∧
    cellD (applyWeights [[0, 4000], [4000, 0]] [outdoorPoiQ] (some rainyW)
      (some ⟨true, 2⟩)) 0 1 = 12000 ∧
    (12000 : ℚ) ≠ 6000 := by
  have hcell : cellD ([[0, 4000], [4000, 0]] : List (List ℚ)) 0 1 = 4000 := by simp [cellD]
  have hbase : cellD (applyWeights [[0, 4000], [4000, 0]] [outdoorPoiQ]
      (some rainyW) none) 0 1 = 6000 := by
    rw [applyWeights_weather_cell _ _ _ (by decide) 0 1, hcell]
    simp only [weatherCell]
    rw [if_neg (by decide : ¬ (0 : ℕ) = 1)]
    rw [if_pos (by decide : 0 < 1 ∧ 1 - 1 < [outdoorPoiQ].length ∧
      isOutdoorType ([outdoorPoiQ].getD (1 - 1) dfltPoi).ptype = true)]
    rw [if_neg (by norm_num : ¬ (4000 : ℚ) * 1.5 < 1000)]
    norm_num
  refine ⟨hcell, by norm_num, hbase, ?_, by norm_num⟩
  have ht := applyWeights_traffic_cell [[0, 4000], [4000, 0]] [outdoorPoiQ]
    (some rainyW) ⟨true, 2⟩ rfl 0 1
  rw [hbase] at ht
  rw [if_pos ⟨by decide, by norm_num⟩] at ht
  rw [ht]
  norm_num

/-- Claim C3 (amended): with a congested TrafficContext of delay factor d,
every off-diagonal cell whose value after the weather step exceeds 5000 is
multiplied by d, and every other cell is left exactly as the weather step
produced it — the 5000 m threshold is tested on the weather-adjusted value,
not on the raw distance. -/
theorem C3_traffic_penalty_amended {α : Type} [LinearOrderedField α] (m : List (List α))
    (pois : List (Poi α)) (w? : Option WeatherData) (t : TrafficData α)
    (ht : t.congestion = true) (i j : ℕ) :
    cellD (applyWeights m pois w? (some t)) i j =
      (if i ≠ j ∧ 5000 < cellD (applyWeights m pois w? none) i j
       then cellD (applyWeights m pois w? none) i j * t.delay_factor
       else cellD (applyWeights m pois w? none) i j) :=
  applyWeights_traffic_cell m pois w? t ht i j

theorem C3_witness :
    (⟨true, (2 : ℚ)⟩ : TrafficData ℚ).congestion = true ∧
    cellD (applyWeights ([[0, 6000], [6000, 0]] : List (List ℚ)) ([] : List (Poi ℚ))
      none (some ⟨true, 2⟩)) 0 1 =
      (if 0 ≠ 1 ∧ (5000 : ℚ) <
          cellD (applyWeights ([[0, 6000], [6000, 0]] : List (List ℚ)) ([] : List (Poi ℚ))
            none none) 0 1
       then cellD (applyWeights ([[0, 6000], [6000, 0]] : List (List ℚ)) ([] : List (Poi ℚ))
         none none) 0 1 * (⟨true, (2 : ℚ)⟩ : TrafficData ℚ).delay_factor
       else cellD (applyWeights ([[0, 6000], [6000, 0]] : List (List ℚ)) ([] : List (Poi ℚ))
         none none) 0 1) := by
  refine ⟨rfl, ?_⟩
  exact C3_traffic_penalty_amended [[0, 6000], [6000, 0]] [] none ⟨true, 2⟩ rfl 0 1

/-! ## Geometry lemmas for the Haversine distance -/

theorem radians_sub_swap (x y : ℝ) : radians (x - y) = -radians (y - x) := by
  unfold radians
  ring

theorem havA_comm (p q : ℝ × ℝ) : havA p q = havA q p := by
  unfold havA
  have h1 : Real.sin (radians (p.2 - q.2) / 2) ^ 2 =
      Real.sin (radians (q.2 - p.2) / 2) ^ 2 := by
    rw [radians_sub_swap p.2 q.2, neg_div, Real.sin_neg]
    ring
  have h2 : Real.sin (radians (p.1 - q.1) / 2) ^ 2 =
      Real.sin (radians (q.1 - p.1) / 2) ^ 2 := by
    rw [radians_sub_swap p.1 q.1, neg_div, Real.sin_neg]
    ring
  rw [h1, h2]
  ring

theorem haversine_comm (p q : ℝ × ℝ) : haversineDist p q = haversineDist q p := by
  unfold haversineDist
  rw [havA_comm]

theorem atan2_nonneg {y x : ℝ} (hy : 0 ≤ y) (hx : 0 ≤ x) : 0 ≤ atan2 y x := by
  unfold atan2
  rcases hx.lt_or_eq with hx1 | hx1
  · rw [if_pos hx1]
    have h := Real.arctan_strictMono.monotone (div_nonneg hy (le_of_lt hx1))
    simpa [Real.arctan_zero] using h
  · rw [← hx1]
    rw [if_neg (lt_irrefl 0), if_neg (lt_irrefl 0)]
    rcases hy.lt_or_eq with hy1 | hy1
    · rw [if_pos hy1]
      linarith [Real.pi_pos]
    · rw [← hy1]
      rw [if_neg (lt_irrefl 0), if_neg (lt_irrefl 0)]

theorem atan2_pos {y x : ℝ} (hy : 0 < y) (hx : 0 ≤ x) : 0 < atan2 y x := by
  unfold atan2
  rcases hx.lt_or_eq with hx1 | hx1
  · rw [if_pos hx1]
    have h := Real.arctan_strictMono (div_pos hy hx1)
    simpa [Real.arctan_zero] using h
  · rw [← hx1]
    rw [if_neg (lt_irrefl 0), if_neg (lt_irrefl 0), if_pos hy]
    linarith [Real.pi_pos]

theorem haversine_nonneg (p q : ℝ × ℝ) : 0 ≤ haversineDist p q := by
  unfold haversineDist
  have h := atan2_nonneg (Real.sqrt_nonneg (havA p q)) (Real.sqrt_nonneg (1 - havA p q))
  have h2 := mul_nonneg (by norm_num : (0 : ℝ) ≤ 2) h
  exact mul_nonneg (by norm_num : (0 : ℝ) ≤ 6371000) h2

/-! ## Cell lemmas for distMatrixOf -/

theorem distMatrixOf_row {α : Type} [LinearOrderedField α] (dist : α × α → α × α → α)
    (locs : List (α × α)) (i : ℕ) (hi : i < locs.length) :
    (distMatrixOf dist locs).getD i [] =
      (List.range locs.length).map fun j =>
        if i = j then 0 else dist (locs.getD i (0, 0)) (locs.getD j (0, 0)) := by
  unfold distMatrixOf
  rw [List.getD_eq_getElem _ _ (by simpa using hi)]
  simp

theorem distMatrixOf_row_ge {α : Type} [LinearOrderedField α] (dist : α × α → α × α → α)
    (locs : List (α × α)) (i : ℕ) (hi : locs.length ≤ i) :
    (distMatrixOf dist locs).getD i [] = [] := by
  apply List.getD_eq_default
  rw [distMatrixOf_length]
  exact hi

theorem distMatrixOf_cell {α : Type} [LinearOrderedField α] (dist : α × α → α × α → α)
    (locs : List (α × α)) (i j : ℕ) (hi : i < locs.length) (hj : j < locs.length) :
    cellD (distMatrixOf dist locs) i j =
      if i = j then 0 else dist (locs.getD i (0, 0)) (locs.getD j (0, 0)) := by
  unfold cellD
  rw [distMatrixOf_row dist locs i hi]
  rw [List.getD_eq_getElem _ _ (by simpa using hj)]
  simp

theorem distMatrixOf_cell_zero_of_ge {α : Type} [LinearOrderedField α]
    (dist : α × α → α × α → α) (locs : List (α × α)) (i j : ℕ)
    (h : locs.length ≤ i ∨ locs.length ≤ j) :
    cellD (distMatrixOf dist locs) i j = 0 := by
  unfold cellD
  rcases h with h | h
  · rw [distMatrixOf_row_ge dist locs i h]
    simp
  · by_cases hi : i < locs.length
    · rw [distMatrixOf_row dist locs i hi]
      apply List.getD_eq_default
      simpa using h
    · rw [distMatrixOf_row_ge dist locs i (le_of_not_lt hi)]
      simp

/-! ## C9 and C7: distance symmetry and matrix construction -/

/-- Claim C9: the Haversine distance is symmetric in its two arguments, and
every matrix produced by the builder is symmetric, has a zero diagonal and
holds only non-negative entries. -/
theorem C9_distance_symmetry :
    (∀ a b : ℝ × ℝ, haversineDist a b = haversineDist b a) ∧
    (∀ (pois : List (RawPoi ℝ)) (start : ℝ × ℝ) (M : List (List ℝ)),
      buildDistanceMatrix haversineDist pois start = some M →
      (∀ i j, cellD M i j = cellD M j i) ∧
      (∀ i, cellD M i i = 0) ∧
      (∀ i j, 0 ≤ cellD M i j)) := by
  refine ⟨haversine_comm, ?_⟩
  intro pois start M hM
  unfold buildDistanceMatrix at hM
  rw [Option.map_eq_some'] at hM
  obtain ⟨ls, hls, hMdef⟩ := hM
  subst hMdef
  refine ⟨?_, ?_, ?_⟩
  · intro i j
    by_cases hi : i < (start :: ls).length
    · by_cases hj : j < (start :: ls).length
      · rw [distMatrixOf_cell haversineDist (start :: ls) i j hi hj,
          distMatrixOf_cell haversineDist (start :: ls) j i hj hi]
        rcases eq_or_ne i j with h | h
        · rw [h]
        · rw [if_neg h, if_neg (Ne.symm h), haversine_comm]
      · rw [distMatrixOf_cell_zero_of_ge haversineDist _ i j (Or.inr (le_of_not_lt hj)),
          distMatrixOf_cell_zero_of_ge haversineDist _ j i (Or.inl (le_of_not_lt hj))]
    · rw [distMatrixOf_cell_zero_of_ge haversineDist _ i j (Or.inl (le_of_not_lt hi)),
        distMatrixOf_cell_zero_of_ge haversineDist _ j i (Or.inr (le_of_not_lt hi))]
  · intro i
    by_cases hi : i < (start :: ls).length
    · rw [distMatrixOf_cell haversineDist (start :: ls) i i hi hi]
      simp
    · rw [distMatrixOf_cell_zero_of_ge haversineDist _ i i (Or.inl (le_of_not_lt hi))]
  · intro i j
    by_cases hi : i < (start :: ls).length
    · by_cases hj : j < (start :: ls).length
      · rw [distMatrixOf_cell haversineDist (start :: ls) i j hi hj]
        split_ifs
        · exact le_refl 0
        · exact haversine_nonneg _ _
      · rw [distMatrixOf_cell_zero_of_ge haversineDist _ i j (Or.inr (le_of_not_lt hj))]
    · rw [distMatrixOf_cell_zero_of_ge haversineDist _ i j (Or.inl (le_of_not_lt hi))]

theorem C9_witness :
    buildDistanceMatrix haversineDist ([] : List (RawPoi ℝ)) (0, 0) = some [[0]] ∧
    cellD [[(0 : ℝ)]] 0 0 = 0 := by
  have hb : buildDistanceMatrix haversineDist ([] : List (RawPoi ℝ)) (0, 0) = some [[0]] := by
    unfold buildDistanceMatrix resolveAll distMatrixOf
    simp [List.range_succ]
  exact ⟨hb, (C9_distance_symmetry.2 [] (0, 0) [[0]] hb).2.1 0⟩

/-- Claim C7: the matrix builder fails (with an error) exactly when some POI
lacks resolved coordinates; on fully resolved input it returns the
(N+1)×(N+1) matrix over the start followed by the POI locations, with zero
diagonal and the Haversine distance in every off-diagonal cell (row and
column 0 belong to the start, the head of the location list). -/
theorem C7_build_matrix_contract (pois : List (RawPoi ℝ)) (start : ℝ × ℝ) :
    ((∃ p ∈ pois, resolveLoc p = none) →
      buildDistanceMatrix haversineDist pois start = none) ∧
    (∀ ls : List (ℝ × ℝ), resolveAll pois = some ls →
      buildDistanceMatrix haversineDist pois start =
        some (distMatrixOf haversineDist (start :: ls)) ∧
      (distMatrixOf haversineDist (start :: ls)).length = pois.length + 1 ∧
      (∀ i, i < pois.length + 1 →
        ((distMatrixOf haversineDist (start :: ls)).getD i []).length = pois.length + 1) ∧
      (∀ i j, i < pois.length + 1 → j < pois.length + 1 →
        cellD (distMatrixOf haversineDist (start :: ls)) i j =
          (if i = j then 0
           else haversineDist ((start :: ls).getD i (0, 0)) ((start :: ls).getD j (0, 0))))) := by
  constructor
  · rintro ⟨p, hp, hnone⟩
    unfold buildDistanceMatrix
    rw [resolveAll_eq_none_of_mem pois p hp hnone]
    rfl
  · intro ls hls
    have hlen : ls.length = pois.length := resolveAll_some_length pois ls hls
    have hlocs : (start :: ls).length = pois.length + 1 := by simp [hlen]
    refine ⟨?_, ?_, ?_, ?_⟩
    · unfold buildDistanceMatrix
      rw [hls]
      rfl
    · rw [distMatrixOf_length, hlocs]
    · intro i hi
      rw [distMatrixOf_row haversineDist _ i (by rw [hlocs]; exact hi)]
      simp [hlocs]
    · intro i j hi hj
      rw [distMatrixOf_cell haversineDist _ i j (by rw [hlocs]; exact hi)
        (by rw [hlocs]; exact hj)]

theorem C7_witness :
    buildDistanceMatrix haversineDist [(⟨none, some 1⟩ : RawPoi ℝ)] (0, 0) = none ∧
    (distMatrixOf haversineDist ((0, 0) :: ([] : List (ℝ × ℝ)))).length = 0 + 1 := by
  constructor
  · exact (C7_build_matrix_contract [⟨none, some 1⟩] (0, 0)).1
      ⟨⟨none, some 1⟩, by simp, rfl⟩
  · exact ((C7_build_matrix_contract [] (0, 0)).2 [] rfl).2.1

/-! ## Route statistics lemmas -/

theorem routeLegs_nil {α : Type} [LinearOrderedField α] (dist : α × α → α × α → α)
    (pois : List (Poi α)) (cur : α × α) : routeLegs dist [] pois cur = [] := rfl

theorem routeLegs_cons {α : Type} [LinearOrderedField α] (dist : α × α → α × α → α)
    (k : ℕ) (ks : List ℕ) (pois : List (Poi α)) (cur : α × α) :
    routeLegs dist (k :: ks) pois cur =
      dist cur (poiLoc (pois.getD k dfltPoi)) ::
        routeLegs dist ks pois (poiLoc (pois.getD k dfltPoi)) := by
  unfold routeLegs
  simp

theorem statsFold {α : Type} [LinearOrderedField α] (dist : α × α → α × α → α)
    (pois : List (Poi α)) :
    ∀ (route : List ℕ) (cur : α × α) (D T : α),
      (∀ k ∈ route, k < pois.length) →
      (route.foldl (statsStep dist pois) (cur, (D, T))).2 =
        (D + (routeLegs dist route pois cur).sum,
         T + ((routeLegs dist route pois cur).map fun v =>
           if v < 1000 then v / (5000 / 3600)
           else if v < 5000 then v / (20000 / 3600)
           else v / (40000 / 3600)).sum) := by
  have e1 : ∀ v : α, v / 1000 / 5 * 3600 = v / (5000 / 3600) := by
    intro v
    rw [div_div, div_mul_eq_mul_div, div_div_eq_mul_div]
    norm_num
  have e2 : ∀ v : α, v / 1000 / 20 * 3600 = v / (20000 / 3600) := by
    intro v
    rw [div_div, div_mul_eq_mul_div, div_div_eq_mul_div]
    norm_num
  have e3 : ∀ v : α, v / 1000 / 40 * 3600 = v / (40000 / 3600) := by
    intro v
    rw [div_div, div_mul_eq_mul_div, div_div_eq_mul_div]
    norm_num
  intro route
  induction route with
  | nil =>
    intro cur D T h
    simp [routeLegs_nil]
  | cons k ks ih =>
    intro cur D T h
    have hk : k < pois.length := h k (List.mem_cons_self k ks)
    rw [List.foldl_cons]
    have hstep : statsStep dist pois (cur, (D, T)) k =
        (poiLoc (pois.getD k dfltPoi),
         (D + dist cur (poiLoc (pois.getD k dfltPoi)),
          T + (if dist cur (poiLoc (pois.getD k dfltPoi)) < 1000
               then dist cur (poiLoc (pois.getD k dfltPoi)) / 1000 / 5 * 3600
               else if dist cur (poiLoc (pois.getD k dfltPoi)) < 5000
               then dist cur (poiLoc (pois.getD k dfltPoi)) / 1000 / 20 * 3600
               else dist cur (poiLoc (pois.getD k dfltPoi)) / 1000 / 40 * 3600))) := by
      unfold statsStep
      rw [if_pos hk]
    rw [hstep]
    rw [ih _ _ _ (fun x hx => h x (List.mem_cons_of_mem k hx))]
    rw [routeLegs_cons]
    simp only [List.sum_cons, List.map_cons]
    refine Prod.ext ?_ ?_
    · show D + dist cur (poiLoc (pois.getD k dfltPoi)) +
        (routeLegs dist ks pois (poiLoc (pois.getD k dfltPoi))).sum = _
      ring
    · show T + _ + _ = _
      split_ifs with h1 h2
      · rw [e1]
        ring
      · rw [e2]
        ring
      · rw [e3]
        ring

/-! ## C8: route statistics -/

/-- Claim C8 (amended): RouteStats walks the ordered stops from the start,
total distance is the sum of the leg distances, and each leg duration is the
leg distance divided by a fixed speed — 5 km/h for legs shorter than 1000 m,
20 km/h for legs from 1000 m up to but excluding 5000 m, and 40 km/h for legs
of 5000 m or longer (a leg of exactly 5000 m falls in the 40 km/h band). -/
theorem C8_route_stats_amended {α : Type} [LinearOrderedField α] (dist : α × α → α × α → α)
    (route : List ℕ) (pois : List (Poi α)) (start : α × α)
    (hroute : ∀ k ∈ route, k < pois.length) :
    calculateRouteStats dist route pois start =
      ((routeLegs dist route pois start).sum,
       ((routeLegs dist route pois start).map fun v =>
         if v < 1000 then v / (5000 / 3600)
         else if v < 5000 then v / (20000 / 3600)
         else v / (40000 / 3600)).sum) := by
  unfold calculateRouteStats
  rw [statsFold dist pois route start 0 0 hroute]
  simp

theorem C8_witness :
    (∀ k ∈ [0], k < [(⟨"p", 3, 4, ""⟩ : Poi ℚ)].length) ∧
    calculateRouteStats sqDistQ [0] [(⟨"p", 3, 4, ""⟩ : Poi ℚ)] (0, 0) =
      ((routeLegs sqDistQ [0] [(⟨"p", 3, 4, ""⟩ : Poi ℚ)] (0, 0)).sum,
       ((routeLegs sqDistQ [0] [(⟨"p", 3, 4, ""⟩ : Poi ℚ)] (0, 0)).map fun v =>
         if v < 1000 then v / (5000 / 3600)
         else if v < 5000 then v / (20000 / 3600)
         else v / (40000 / 3600)).sum) := by
  refine ⟨by decide, ?_⟩
  exact C8_route_stats_amended sqDistQ [0] [⟨"p", 3, 4, ""⟩] (0, 0) (by decide)

theorem haversine_eq_5000 : haversineDist ((0 : ℝ), 0) (lngFor5000, 0) = 5000 := by
  have hgt3 := Real.pi_gt_three
  have hx0 : (0 : ℝ) < 5 / 12742 := by norm_num
  have hxpi2 : (5 : ℝ) / 12742 < Real.pi / 2 := by linarith
  have hxpi : (5 : ℝ) / 12742 < Real.pi := by linarith
  have hrad0 : radians 0 = 0 := by
    unfold radians
    ring
  have hrad : radians lngFor5000 = 5 / 6371 := by
    unfold radians lngFor5000
    have hpne := Real.pi_ne_zero
    field_simp
    ring
  have hA : havA ((0 : ℝ), 0) (lngFor5000, 0) = Real.sin (5 / 12742) ^ 2 := by
    have h0 : havA ((0 : ℝ), 0) (lngFor5000, 0) =
        Real.sin (radians (0 - 0) / 2) ^ 2 +
          Real.cos (radians 0) * Real.cos (radians 0) *
            Real.sin (radians (lngFor5000 - 0) / 2) ^ 2 := rfl
    rw [h0, sub_zero, sub_zero, hrad0, hrad]
    rw [show (5 : ℝ) / 6371 / 2 = 5 / 12742 by norm_num]
    simp [Real.sin_zero, Real.cos_zero]
  have hsin0 : 0 ≤ Real.sin ((5 : ℝ) / 12742) :=
    Real.sin_nonneg_of_nonneg_of_le_pi (le_of_lt hx0) (le_of_lt hxpi)
  have hcos0 : 0 < Real.cos ((5 : ℝ) / 12742) :=
    Real.cos_pos_of_mem_Ioo ⟨by linarith, hxpi2⟩
  unfold haversineDist
  rw [hA, Real.sqrt_sq hsin0]
  rw [show (1 : ℝ) - Real.sin (5 / 12742) ^ 2 = Real.cos (5 / 12742) ^ 2 from
    (Real.cos_sq' _).symm]
  rw [Real.sqrt_sq (le_of_lt hcos0)]
  unfold atan2
  rw [if_pos hcos0]
  rw [← Real.tan_eq_sin_div_cos]
  rw [Real.arctan_tan (by linarith) hxpi2]
  norm_num

/-- Claim C8 counterexample: on a single leg of exactly 5000 m (a POI 5000 m
east of the start along the equator), the code puts the leg in the 40 km/h
band and reports 450 s, while the claim (20 km/h up to and including 5000 m)
demands 900 s. -/
theorem C8_counterexample :
    (calculateRouteStats haversineDist [0] [poi5k] ((0 : ℝ), 0)).2 = 450 ∧
    (routeStatsClaimed haversineDist [0] [poi5k] ((0 : ℝ), 0)).2 = 900 ∧
    ((450 : ℝ) ≠ 900) := by
  have h5 : haversineDist ((0 : ℝ), 0) (poiLoc (([poi5k] : List (Poi ℝ)).getD 0 dfltPoi)) =
      5000 := haversine_eq_5000
  have hlegs : routeLegs haversineDist [0] [poi5k] ((0 : ℝ), 0) = [(5000 : ℝ)] := by
    rw [routeLegs_cons, h5]
    rfl
  refine ⟨?_, ?_, by norm_num⟩
  · have hvalid : ∀ k ∈ [0], k < ([poi5k] : List (Poi ℝ)).length := by
      intro k hk
      simp at hk
      simp [hk]
    unfold calculateRouteStats
    rw [statsFold haversineDist [poi5k] [0] ((0 : ℝ), 0) 0 0 hvalid]
    show (0 : ℝ) + _ = 450
    rw [hlegs]
    simp only [List.map_cons, List.map_nil, List.sum_cons, List.sum_nil]
    rw [if_neg (by norm_num : ¬ (5000 : ℝ) < 1000)]
    rw [if_neg (by norm_num : ¬ (5000 : ℝ) < 5000)]
    norm_num
  · unfold routeStatsClaimed
    rw [hlegs]
    simp only [List.map_cons, List.map_nil, List.sum_cons, List.sum_nil]
    rw [if_neg (by norm_num : ¬ (5000 : ℝ) < 1000)]
    rw [if_pos (by norm_num : (5000 : ℝ) ≤ 5000)]
    norm_num

/-! ## Gate selector: structural lemmas -/

theorem nextAfter_zero_cons {α : Type} [Zero α] (p : GatePoi α) (rest : List (GatePoi α)) :
    nextAfter (p :: rest) 0 = nextLocOf rest := by
  unfold nextAfter
  cases rest with
  | nil =>
    rw [if_neg (by simp)]
    rfl
  | cons q qs =>
    rw [if_pos (by simp only [List.length_cons]; omega)]
    rfl

theorem nextAfter_cons_succ {α : Type} [Zero α] (p : GatePoi α) (rest : List (GatePoi α))
    (i : ℕ) : nextAfter (p :: rest) (i + 1) = nextAfter rest i := by
  unfold nextAfter
  by_cases h : i + 1 < rest.length
  · rw [if_pos (by simp only [List.length_cons]; omega), if_pos h]
    rfl
  · rw [if_neg (by simp only [List.length_cons]; omega), if_neg h]

theorem optimizeGatesGo_getD_zero {α : Type} [LinearOrderedField α] [DecidableEq α]
    (d : α × α → α × α → α) (lookup : GatePoi α → GatesData α) (prev? : Option (α × α))
    (p : GatePoi α) (rest : List (GatePoi α)) :
    (optimizeGatesGo d lookup prev? (p :: rest)).getD 0 dfltStop =
      processStop d (lookup p) p prev? (nextAfter (p :: rest) 0) := by
  rw [nextAfter_zero_cons]
  rfl

theorem optimizeGatesGo_getD_succ {α : Type} [LinearOrderedField α] [DecidableEq α]
    (d : α × α → α × α → α) (lookup : GatePoi α → GatesData α) :
    ∀ (seq : List (GatePoi α)) (prev? : Option (α × α)) (i : ℕ), i + 1 < seq.length →
      (optimizeGatesGo d lookup prev? seq).getD (i + 1) dfltStop =
        processStop d (lookup (seq.getD (i + 1) dfltGatePoi)) (seq.getD (i + 1) dfltGatePoi)
          (some (prevLocOfStop ((optimizeGatesGo d lookup prev? seq).getD i dfltStop)))
          (nextAfter seq (i + 1)) := by
  intro seq
  induction seq with
  | nil =>
    intro prev? i hi
    simp at hi
  | cons p rest ih =>
    intro prev? i hi
    cases i with
    | zero =>
      cases rest with
      | nil => simp at hi
      | cons q qs =>
        have h1 : (optimizeGatesGo d lookup prev? (p :: q :: qs)).getD 1 dfltStop =
            processStop d (lookup q) q
              (some (prevLocOfStop (processStop d (lookup p) p prev? (nextLocOf (q :: qs)))))
              (nextLocOf qs) := rfl
        have h2 : (optimizeGatesGo d lookup prev? (p :: q :: qs)).getD 0 dfltStop =
            processStop d (lookup p) p prev? (nextLocOf (q :: qs)) := rfl
        rw [h1, h2]
        rw [show nextAfter (p :: q :: qs) (0 + 1) = nextAfter (q :: qs) 0 from
          nextAfter_cons_succ p (q :: qs) 0]
        rw [nextAfter_zero_cons]
        rfl
    | succ j =>
      have hj : j + 1 < rest.length := by
        simp only [List.length_cons] at hi
        omega
      have hL : (optimizeGatesGo d lookup prev? (p :: rest)).getD (j + 1 + 1) dfltStop =
          (optimizeGatesGo d lookup
            (some (prevLocOfStop (processStop d (lookup p) p prev? (nextLocOf rest))))
            rest).getD (j + 1) dfltStop := rfl
      have hL2 : (optimizeGatesGo d lookup prev? (p :: rest)).getD (j + 1) dfltStop =
          (optimizeGatesGo d lookup
            (some (prevLocOfStop (processStop d (lookup p) p prev? (nextLocOf rest))))
            rest).getD j dfltStop := rfl
      rw [hL, ih _ j hj, hL2]
      rw [nextAfter_cons_succ p rest (j + 1)]
      rfl

theorem optimizeGates_stop_cases {α : Type} [LinearOrderedField α] [DecidableEq α]
    (d : α × α → α × α → α) (lookup : GatePoi α → GatesData α) (seq : List (GatePoi α))
    (i : ℕ) (hi : i < seq.length) :
    (i = 0 → (optimizeGates d lookup seq).getD i dfltStop =
       processStop d (lookup (seq.getD i dfltGatePoi)) (seq.getD i dfltGatePoi) none
         (nextAfter seq i)) ∧
    (∀ k, i = k + 1 → (optimizeGates d lookup seq).getD i dfltStop =
       processStop d (lookup (seq.getD i dfltGatePoi)) (seq.getD i dfltGatePoi)
         (some (prevLocOfStop ((optimizeGates d lookup seq).getD k dfltStop)))
         (nextAfter seq i)) := by
  constructor
  · intro h0
    subst h0
    cases seq with
    | nil => simp at hi
    | cons p rest => exact optimizeGatesGo_getD_zero d lookup none p rest
  · intro k hk
    subst hk
    exact optimizeGatesGo_getD_succ d lookup seq none k hi

theorem getD_zero_mem {β : Type} (l : List β) (dflt : β) (h : l ≠ []) :
    l.getD 0 dflt ∈ l := by
  cases l with
  | nil => exact absurd rfl h
  | cons a t => simp

theorem chooseEntry_mem {α : Type} [LinearOrderedField α] (d : α × α → α × α → α)
    (gates : List (Gate α)) (prev? : Option (α × α)) (h : gates ≠ []) :
    chooseEntry d gates prev? ∈ gates := by
  unfold chooseEntry
  cases prev? with
  | none => exact getD_zero_mem gates dfltGate h
  | some pl =>
    cases gates with
    | nil => exact absurd rfl h
    | cons g0 gs => exact foldMinBy_mem (fun h2 => d pl h2.location) gs g0

theorem chooseEntry_min {α : Type} [LinearOrderedField α] (d : α × α → α × α → α)
    (gates : List (Gate α)) (pl : α × α) (g : Gate α) (hg : g ∈ gates) :
    d pl (chooseEntry d gates (some pl)).location ≤ d pl g.location := by
  unfold chooseEntry
  cases gates with
  | nil => simp at hg
  | cons g0 gs => exact foldMinBy_le (fun h2 => d pl h2.location) gs g0 g hg

theorem processStop_multi {α : Type} [LinearOrderedField α] [DecidableEq α]
    (d : α × α → α × α → α) (gd : GatesData α) (poi : GatePoi α)
    (prev? next? : Option (α × α)) (hg : ¬ gd.gates.length ≤ 1) :
    processStop d gd poi prev? next? =
      ⟨poi, some (chooseEntry d gd.gates prev?),
        some (chooseExit d gd.gates gd.hasMultipleGates (chooseEntry d gd.gates prev?)
          next?)⟩ := by
  simp only [processStop]
  rw [if_neg hg]

theorem chooseExit_some {α : Type} [LinearOrderedField α] [DecidableEq α]
    (d : α × α → α × α → α) (gates : List (Gate α)) (hmg : Bool) (entry : Gate α)
    (nl : α × α)
    (hcond : hmg = true ∧ 1 < (sortGatesByNext d gates nl).length ∧
      entry.location = ((sortGatesByNext d gates nl).getD 0 dfltGate).location) :
    chooseExit d gates hmg entry (some nl) =
      (if 500 < maxPairwiseD d gates
       then (sortGatesByNext d gates nl).getD 1 dfltGate
       else (sortGatesByNext d gates nl).getD 0 dfltGate) := by
  simp only [chooseExit]
  rw [if_pos hcond]

/-! ## C5: entry-gate selection -/

/-- Claim C5 (amended): for every stop with at least two gates, when the stop
has a predecessor the entry gate is a member of the gate list minimising the
distance to the previous stop's resolved exit position; for the first stop of
the sequence the entry gate is simply the first gate of the list — the global
start location is not an input of optimize_gates_for_sequence and is never
consulted. -/
theorem C5_entry_gate_amended {α : Type} [LinearOrderedField α] [DecidableEq α]
    (d : α × α → α × α → α) (lookup : GatePoi α → GatesData α) (seq : List (GatePoi α))
    (i : ℕ) (hi : i < seq.length)
    (hg : 2 ≤ (lookup (seq.getD i dfltGatePoi)).gates.length) :
    (∀ e, ((optimizeGates d lookup seq).getD i dfltStop).entryGate = some e →
       e ∈ (lookup (seq.getD i dfltGatePoi)).gates) ∧
    (∀ k, i = k + 1 → ∀ e,
       ((optimizeGates d lookup seq).getD i dfltStop).entryGate = some e →
       ∀ g ∈ (lookup (seq.getD i dfltGatePoi)).gates,
         d (prevLocOfStop ((optimizeGates d lookup seq).getD k dfltStop)) e.location ≤
         d (prevLocOfStop ((optimizeGates d lookup seq).getD k dfltStop)) g.location) ∧
    (i = 0 → ((optimizeGates d lookup seq).getD i dfltStop).entryGate =
       some ((lookup (seq.getD i dfltGatePoi)).gates.getD 0 dfltGate)) := by
  have hne : (lookup (seq.getD i dfltGatePoi)).gates ≠ [] := by
    intro h
    rw [h] at hg
    simp at hg
  have hgt : ¬ (lookup (seq.getD i dfltGatePoi)).gates.length ≤ 1 := by omega
  have hcases := optimizeGates_stop_cases d lookup seq i hi
  refine ⟨?_, ?_, ?_⟩
  · intro e he
    cases i with
    | zero =>
      rw [hcases.1 rfl, processStop_multi d _ _ _ _ hgt] at he
      have he2 : chooseEntry d (lookup (seq.getD 0 dfltGatePoi)).gates none = e := by
        simpa using he
      rw [← he2]
      exact chooseEntry_mem d _ none hne
    | succ k =>
      rw [hcases.2 k rfl, processStop_multi d _ _ _ _ hgt] at he
      have he2 : chooseEntry d (lookup (seq.getD (k + 1) dfltGatePoi)).gates
          (some (prevLocOfStop ((optimizeGates d lookup seq).getD k dfltStop))) = e := by
        simpa using he
      rw [← he2]
      exact chooseEntry_mem d _ _ hne
  · intro k hk e he g hg2
    subst hk
    rw [hcases.2 k rfl, processStop_multi d _ _ _ _ hgt] at he
    have he2 : chooseEntry d (lookup (seq.getD (k + 1) dfltGatePoi)).gates
        (some (prevLocOfStop ((optimizeGates d lookup seq).getD k dfltStop))) = e := by
      simpa using he
    rw [← he2]
    exact chooseEntry_min d _ _ g hg2
  · intro h0
    subst h0
    rw [hcases.1 rfl, processStop_multi d _ _ _ _ hgt]
    rfl
/-! ## C4: forced traversal -/

theorem chooseExit_spec {α : Type} [LinearOrderedField α] [DecidableEq α]
    (d : α × α → α × α → α) (G : List (Gate α)) (nl : α × α) (entry : Gate α)
    (hg : 2 ≤ G.length)
    (hnd : (G.map Gate.location).Nodup)
    (hmem : entry ∈ G)
    (hsame : entry.location = ((sortGatesByNext d G nl).getD 0 dfltGate).location) :
    (500 < maxPairwiseD d G →
      chooseExit d G true entry (some nl) = (sortGatesByNext d G nl).getD 1 dfltGate ∧
      (chooseExit d G true entry (some nl)).location ≠ entry.location ∧
      ∀ g ∈ G, g.location ≠ entry.location →
        d (chooseExit d G true entry (some nl)).location nl ≤ d g.location nl) ∧
    (¬ 500 < maxPairwiseD d G → chooseExit d G true entry (some nl) = entry) := by
  have hperm : (sortGatesByNext d G nl).Perm G := List.perm_insertionSort _ _
  have hslen : (sortGatesByNext d G nl).length = G.length := hperm.length_eq
  have h1lt : 1 < (sortGatesByNext d G nl).length := by omega
  have hchoose : chooseExit d G true entry (some nl) =
      (if 500 < maxPairwiseD d G
       then (sortGatesByNext d G nl).getD 1 dfltGate
       else (sortGatesByNext d G nl).getD 0 dfltGate) :=
    chooseExit_some d G true entry nl ⟨rfl, h1lt, hsame⟩
  obtain ⟨s0, s1, t2, hst⟩ : ∃ a b t2, sortGatesByNext d G nl = a :: b :: t2 := by
    cases hS2 : sortGatesByNext d G nl with
    | nil =>
      rw [hS2] at h1lt
      simp at h1lt
    | cons a tl =>
      cases tl with
      | nil =>
        rw [hS2] at h1lt
        simp at h1lt
      | cons b t2 => exact ⟨a, b, t2, rfl⟩
  have hs0 : (sortGatesByNext d G nl).getD 0 dfltGate = s0 := by
    rw [hst]
    rfl
  have hs1 : (sortGatesByNext d G nl).getD 1 dfltGate = s1 := by
    rw [hst]
    rfl
  have hsortnd : ((sortGatesByNext d G nl).map Gate.location).Nodup :=
    ((hperm.map Gate.location).nodup_iff).mpr hnd
  rw [hst] at hsortnd
  rw [List.map_cons, List.map_cons] at hsortnd
  have hnotin := (List.nodup_cons.mp hsortnd).1
  have hne01 : s0.location ≠ s1.location := by
    intro heq
    exact hnotin (by rw [heq]; exact List.mem_cons_self _ _)
  have hs0G : s0 ∈ G := hperm.mem_iff.mp (by rw [hst]; exact List.mem_cons_self _ _)
  have hsorted : List.Sorted (gateOrder d nl) (sortGatesByNext d G nl) :=
    List.sorted_insertionSort _ _
  rw [hst] at hsorted
  have hs1min : ∀ g ∈ s1 :: t2, gateOrder d nl s1 g := by
    have h2 := (List.sorted_cons.mp hsorted).2
    intro g hgmem
    rcases List.mem_cons.mp hgmem with h | h
    · rw [h]
      exact le_refl _
    · exact (List.sorted_cons.mp h2).1 g h
  constructor
  · intro hmax
    have hx : chooseExit d G true entry (some nl) = (sortGatesByNext d G nl).getD 1 dfltGate := by
      rw [hchoose, if_pos hmax]
    refine ⟨hx, ?_, ?_⟩
    · rw [hx, hs1, hsame, hs0]
      exact hne01.symm
    · intro g hgmemG hgne
      rw [hx, hs1]
      have hgS : g ∈ sortGatesByNext d G nl := hperm.mem_iff.mpr hgmemG
      rw [hst] at hgS
      rcases List.mem_cons.mp hgS with h | h
      · exfalso
        apply hgne
        rw [h, hsame, hs0]
      · exact hs1min g h
  · intro hmax
    have hx : chooseExit d G true entry (some nl) = (sortGatesByNext d G nl).getD 0 dfltGate := by
      rw [hchoose, if_neg hmax]
    rw [hx, hs0]
    exact (List.inj_on_of_nodup_map hnd hmem hs0G (by rw [hsame, hs0])).symm

/-- Claim C4: for a non-last stop with at least two gates (with distinct
locations, as the gate provider guarantees by location-deduplication, and
with the has_multiple_gates flag set, as the provider sets it whenever more
than one gate exists) whose chosen entry gate shares its location with the
gate nearest to the next stop: if the maximum pairwise gate distance exceeds
500 the exit is overridden to the second gate of the distance-sorted list —
the second-nearest gate to the next stop, so that the exit location differs
from the entry location and is no farther from the next stop than any gate
other than the nearest one — while if that maximum is at most 500 the exit
stays equal to the entry gate. -/
theorem C4_forced_traversal {α : Type} [LinearOrderedField α] [DecidableEq α]
    (d : α × α → α × α → α) (lookup : GatePoi α → GatesData α) (seq : List (GatePoi α))
    (i : ℕ) (hi : i + 1 < seq.length)
    (hg : 2 ≤ (lookup (seq.getD i dfltGatePoi)).gates.length)
    (hmg : (lookup (seq.getD i dfltGatePoi)).hasMultipleGates = true)
    (hnd : ((lookup (seq.getD i dfltGatePoi)).gates.map Gate.location).Nodup)
    (e : Gate α)
    (he : ((optimizeGates d lookup seq).getD i dfltStop).entryGate = some e)
    (hsame : e.location =
      ((sortGatesByNext d (lookup (seq.getD i dfltGatePoi)).gates
        (rawLoc (seq.getD (i + 1) dfltGatePoi))).getD 0 dfltGate).location) :
    (500 < maxPairwiseD d (lookup (seq.getD i dfltGatePoi)).gates →
      ((optimizeGates d lookup seq).getD i dfltStop).exitGate =
        some ((sortGatesByNext d (lookup (seq.getD i dfltGatePoi)).gates
          (rawLoc (seq.getD (i + 1) dfltGatePoi))).getD 1 dfltGate) ∧
      (∀ x, ((optimizeGates d lookup seq).getD i dfltStop).exitGate = some x →
        x.location ≠ e.location ∧
        ∀ g ∈ (lookup (seq.getD i dfltGatePoi)).gates, g.location ≠ e.location →
          d x.location (rawLoc (seq.getD (i + 1) dfltGatePoi)) ≤
            d g.location (rawLoc (seq.getD (i + 1) dfltGatePoi)))) ∧
    (¬ 500 < maxPairwiseD d (lookup (seq.getD i dfltGatePoi)).gates →
      ((optimizeGates d lookup seq).getD i dfltStop).exitGate = some e) := by
  have hi0 : i < seq.length := by omega
  have hne : (lookup (seq.getD i dfltGatePoi)).gates ≠ [] := by
    intro h
    rw [h] at hg
    simp at hg
  have hgt : ¬ (lookup (seq.getD i dfltGatePoi)).gates.length ≤ 1 := by omega
  have hnext : nextAfter seq i = some (rawLoc (seq.getD (i + 1) dfltGatePoi)) := by
    unfold nextAfter
    rw [if_pos hi]
  have hstop : ∃ prevArg, (optimizeGates d lookup seq).getD i dfltStop =
      processStop d (lookup (seq.getD i dfltGatePoi)) (seq.getD i dfltGatePoi) prevArg
        (nextAfter seq i) := by
    cases i with
    | zero => exact ⟨none, (optimizeGates_stop_cases d lookup seq 0 hi0).1 rfl⟩
    | succ k => exact ⟨_, (optimizeGates_stop_cases d lookup seq (k + 1) hi0).2 k rfl⟩
  obtain ⟨prevArg, hstop⟩ := hstop
  rw [hnext, processStop_multi d _ _ _ _ hgt, hmg] at hstop
  rw [hstop] at he
  have he2 : chooseEntry d (lookup (seq.getD i dfltGatePoi)).gates prevArg = e := by
    simpa using he
  rw [he2] at hstop
  have hmem : e ∈ (lookup (seq.getD i dfltGatePoi)).gates := by
    rw [← he2]
    exact chooseEntry_mem d _ prevArg hne
  have hspec := chooseExit_spec d (lookup (seq.getD i dfltGatePoi)).gates
    (rawLoc (seq.getD (i + 1) dfltGatePoi)) e hg hnd hmem hsame
  have hexit : ((optimizeGates d lookup seq).getD i dfltStop).exitGate =
      some (chooseExit d (lookup (seq.getD i dfltGatePoi)).gates true e
        (some (rawLoc (seq.getD (i + 1) dfltGatePoi)))) := by
    rw [hstop]
  constructor
  · intro hmax
    obtain ⟨hx, hloc, hmin⟩ := hspec.1 hmax
    constructor
    · rw [hexit, hx]
    · intro x hxx
      rw [hexit] at hxx
      have hx2 : x = chooseExit d (lookup (seq.getD i dfltGatePoi)).gates true e
          (some (rawLoc (seq.getD (i + 1) dfltGatePoi))) := (Option.some.inj hxx).symm
      subst hx2
      exact ⟨hloc, hmin⟩
  · intro hmax
    rw [hexit, hspec.2 hmax]

/-! ## C6: the zero-gate case -/

/-- Claim C6 is wrong about the code, and the code is wrong (a bug): for a
POI reporting zero gates, the Python conditional expression
`poi.get('location','') or gates[0].get('location','') if gates else ''`
evaluates to the empty string, so no entry/exit gate is attached at all —
although the POI carries a perfectly good location and the comment above the
branch says the main POI coordinate should be used.  The emitted stop has
neither an entry gate nor an exit gate; no error is raised. -/
theorem C6_zero_gates_bug :
    poiC6.location? = some (116.4, 39.9) ∧
    ((optimizeGates sqDistQ lookupC6 [poiC6]).getD 0 dfltStop).entryGate = none ∧
    ((optimizeGates sqDistQ lookupC6 [poiC6]).getD 0 dfltStop).exitGate = none := by
  exact ⟨rfl, rfl, rfl⟩

/-! ## Witnesses and counterexamples for the gate claims -/

theorem sortGates_witness_eval :
    sortGatesByNext sqDistQ [gAq, gBq] ((1 : ℚ), 0) = [gAq, gBq] := by
  have hcond : gateOrder sqDistQ ((1 : ℚ), 0) gAq gBq := by
    show ((0 : ℚ) - 1) ^ 2 + ((0 : ℚ) - 0) ^ 2 ≤ ((30 : ℚ) - 1) ^ 2 + ((0 : ℚ) - 0) ^ 2
    norm_num
  show List.orderedInsert (gateOrder sqDistQ ((1 : ℚ), 0)) gAq [gBq] = [gAq, gBq]
  rw [show List.orderedInsert (gateOrder sqDistQ ((1 : ℚ), 0)) gAq [gBq] =
      (if gateOrder sqDistQ ((1 : ℚ), 0) gAq gBq then gAq :: [gBq]
       else gBq :: List.orderedInsert (gateOrder sqDistQ ((1 : ℚ), 0)) gAq []) from rfl]
  rw [if_pos hcond]

theorem maxPairwise_witness_eval : 500 < maxPairwiseD sqDistQ [gAq, gBq] := by
  have hlist : ((([gAq, gBq] : List (Gate ℚ)).product [gAq, gBq]).filter
      (fun p => decide (p.1 ≠ p.2))).map (fun p => sqDistQ p.1.location p.2.location) =
      [sqDistQ gAq.location gBq.location, sqDistQ gBq.location gAq.location] := by rfl
  unfold maxPairwiseD
  rw [if_pos (by decide : 1 < ([gAq, gBq] : List (Gate ℚ)).length)]
  rw [hlist]
  show (500 : ℚ) < max (sqDistQ gAq.location gBq.location) (sqDistQ gBq.location gAq.location)
  have h1 : sqDistQ gAq.location gBq.location = 900 := by
    show ((0 : ℚ) - 30) ^ 2 + ((0 : ℚ) - 0) ^ 2 = 900
    norm_num
  have h2 : sqDistQ gBq.location gAq.location = 900 := by
    show ((30 : ℚ) - 0) ^ 2 + ((0 : ℚ) - 0) ^ 2 = 900
    norm_num
  rw [h1, h2, max_self]
  norm_num

theorem C4_witness :
    0 + 1 < seqC4.length ∧
    2 ≤ (lookupC4 (seqC4.getD 0 dfltGatePoi)).gates.length ∧
    (lookupC4 (seqC4.getD 0 dfltGatePoi)).hasMultipleGates = true ∧
    ((lookupC4 (seqC4.getD 0 dfltGatePoi)).gates.map Gate.location).Nodup ∧
    ((optimizeGates sqDistQ lookupC4 seqC4).getD 0 dfltStop).entryGate = some gAq ∧
    500 < maxPairwiseD sqDistQ (lookupC4 (seqC4.getD 0 dfltGatePoi)).gates ∧
    ((optimizeGates sqDistQ lookupC4 seqC4).getD 0 dfltStop).exitGate =
      some ((sortGatesByNext sqDistQ (lookupC4 (seqC4.getD 0 dfltGatePoi)).gates
        (rawLoc (seqC4.getD 1 dfltGatePoi))).getD 1 dfltGate) := by
  have hg2 : (lookupC4 (seqC4.getD 0 dfltGatePoi)).gates = [gAq, gBq] := rfl
  have hr : rawLoc (seqC4.getD 1 dfltGatePoi) = ((1 : ℚ), 0) := rfl
  have hmax : 500 < maxPairwiseD sqDistQ (lookupC4 (seqC4.getD 0 dfltGatePoi)).gates := by
    rw [hg2]
    exact maxPairwise_witness_eval
  have hsame : gAq.location =
      ((sortGatesByNext sqDistQ (lookupC4 (seqC4.getD 0 dfltGatePoi)).gates
        (rawLoc (seqC4.getD 1 dfltGatePoi))).getD 0 dfltGate).location := by
    rw [hg2, hr, sortGates_witness_eval]
    rfl
  refine ⟨by decide, by decide, rfl, by decide, rfl, hmax, ?_⟩
  exact ((C4_forced_traversal sqDistQ lookupC4 seqC4 0 (by decide) (by decide) rfl
    (by decide) gAq rfl hsame).1 hmax).1

theorem C5_witness :
    0 < seqC4.length ∧
    2 ≤ (lookupC4 (seqC4.getD 0 dfltGatePoi)).gates.length ∧
    ((optimizeGates sqDistQ lookupC4 seqC4).getD 0 dfltStop).entryGate =
      some ((lookupC4 (seqC4.getD 0 dfltGatePoi)).gates.getD 0 dfltGate) := by
  refine ⟨by decide, by decide, ?_⟩
  exact (C5_entry_gate_amended sqDistQ lookupC4 seqC4 0 (by decide) (by decide)).2.2 rfl

theorem haversine_self (p : ℝ × ℝ) : haversineDist p p = 0 := by
  have hA : havA p p = 0 := by
    unfold havA
    rw [sub_self, sub_self]
    rw [show radians 0 = 0 from by unfold radians; ring]
    simp
  unfold haversineDist
  rw [hA, Real.sqrt_zero]
  rw [show (1 : ℝ) - 0 = 1 from by ring, Real.sqrt_one]
  unfold atan2
  rw [if_pos (by norm_num : (0 : ℝ) < 1)]
  simp [Real.arctan_zero]

theorem haversine_pos_ex : 0 < haversineDist ((0 : ℝ), 0) ((0 : ℝ), 10) := by
  have hgt3 := Real.pi_gt_three
  have hpi := Real.pi_pos
  have hx : (0 : ℝ) < Real.pi / 36 := by linarith
  have hxpi : Real.pi / 36 < Real.pi := div_lt_self hpi (by norm_num)
  have hA : havA ((0 : ℝ), 0) ((0 : ℝ), 10) = Real.sin (Real.pi / 36) ^ 2 := by
    have h0 : havA ((0 : ℝ), 0) ((0 : ℝ), 10) =
        Real.sin (radians (10 - 0) / 2) ^ 2 +
          Real.cos (radians 0) * Real.cos (radians 10) *
            Real.sin (radians (0 - 0) / 2) ^ 2 := rfl
    rw [h0, sub_self]
    rw [show radians 0 = 0 from by unfold radians; ring]
    rw [show radians (10 - 0) = Real.pi / 18 from by unfold radians; ring]
    rw [show Real.pi / 18 / 2 = Real.pi / 36 from by ring]
    simp
  have hsinpos : 0 < Real.sin (Real.pi / 36) := Real.sin_pos_of_pos_of_lt_pi hx hxpi
  have hApos : 0 < havA ((0 : ℝ), 0) ((0 : ℝ), 10) := by
    rw [hA]
    exact pow_pos hsinpos 2
  have hy := Real.sqrt_pos.mpr hApos
  have hx2 := Real.sqrt_nonneg (1 - havA ((0 : ℝ), 0) ((0 : ℝ), 10))
  have h := atan2_pos hy hx2
  unfold haversineDist
  have h2 := mul_pos (by norm_num : (0 : ℝ) < 2) h
  exact mul_pos (by norm_num : (0 : ℝ) < 6371000) h2

/-- Claim C5 counterexample: optimize_gates_for_sequence receives no start
location at all; for the first stop it picks `gates[0]`.  With the far gate
listed first, the entry gate of the first stop is the far gate although the
near gate is strictly nearer to the start used by the route — so the claimed
"gate minimizing distance to the global start location" is violated. -/
theorem C5_counterexample :
    ((optimizeGates haversineDist lookupC5 seqC5).getD 0 dfltStop).entryGate =
      some gateFarR ∧
    haversineDist (0, 0) gateNearR.location < haversineDist (0, 0) gateFarR.location := by
  constructor
  · rfl
  · show haversineDist (0, 0) (0, 0) < haversineDist (0, 0) (0, 10)
    rw [haversine_self]
    exact haversine_pos_ex
